import Mathlib

/-!
# streamdeck: page framing, pixel encoding and button decoding

A shallow embedding of `client.go` (package `streamdeck`).

* A Go `byte` is a `Nat`; every conversion to `byte` in the source is an
  explicit `% 256` here.
* A Go `int` is an `Int`.  The only place where an `int` is narrowed is
  `byte(key + 1)`; since 256 divides 2^64 the wrap-around of `key + 1` is
  absorbed by `% 256`.
* A `[]byte` is a `List Nat`; `make([]byte, n)` is `List.replicate n 0`.
* The `Device` (an `io.ReadWriteCloser`) is an arbitrary state machine; the
  `World` carries its state together with the trace of the pages handed to
  `Write` and the number of calls of `Read`.
* A run-time panic (index out of range) is `Outcome.panic`.
-/

namespace Streamdeck

/-! ## Constants -/

/-- Rows of the panel (`numRows`). -/
def numRows : Nat := 3
/-- Columns of the panel (`numColumns`). -/
def numColumns : Nat := 5
/-- Buttons of the panel (`numButtons`). -/
def numButtons : Nat := 15
/-- Side of a button icon in pixels (`iconSize`). -/
def iconSize : Nat := 72

/-- Pixels of an icon carried by the first page (`numFirstPagePixels`). -/
def numFirstPagePixels : Nat := 2583
/-- Pixels of an icon carried by the second page (`numSecondPagePixels`). -/
def numSecondPagePixels : Nat := 2601

/-- Length of one output report (`pageSize`). -/
def pageSize : Nat := 8191
/-- Length of one input report (`eventSize`). -/
def eventSize : Nat := 17

/-! ## Go built-ins -/

/-- Go `copy(dst, src)`: the first `min (len dst) (len src)` elements of `dst`
are overwritten with those of `src`; the length of `dst` is unchanged. -/
def copy (dst src : List Nat) : List Nat :=
  src.take dst.length ++ dst.drop src.length

/-- Go `copy(dst[off:], src)` seen from `dst`: the slice `dst[off:]` shares the
backing array of `dst`. -/
def copyAt (dst : List Nat) (off : Nat) (src : List Nat) : List Nat :=
  dst.take off ++ copy (dst.drop off) src

/-- Go `byte(n)` for an `int` value `n`: the low 8 bits. -/
def toByte (n : Int) : Nat := (n % 256).toNat

/-- Go `bytes.Repeat(b, count)`: `count` copies of `b`, concatenated. -/
def bytesRepeat (b : List Nat) (count : Nat) : List Nat :=
  (List.replicate count b).flatten

/-! ## Transport -/

/-- The `Device` interface (`io.ReadWriteCloser`) as a state machine over
states `σ` with errors `ε`.  `Read s p` is given the buffer `p` and returns the
bytes it stores at the start of the buffer, the count `n` and the error;
`Write s p` returns the count `n` and the error. -/
structure Device (σ ε : Type) where
  Read : σ → List Nat → σ × List Nat × Nat × Option ε
  Write : σ → List Nat → σ × Nat × Option ε
  Close : σ → σ × Option ε

/-- State of the transport together with the record of the calls made on it:
`writes` lists the buffers passed to `Write`, oldest first, `reads` counts the
calls of `Read`. -/
structure World (σ : Type) where
  dev : σ
  writes : List (List Nat)
  reads : Nat

/-- One call `c.device.Write(page)`. -/
def deviceWrite {σ ε : Type} (d : Device σ ε) (w : World σ) (page : List Nat) :
    World σ × Nat × Option ε :=
  let r := d.Write w.dev page
  ({ dev := r.1, writes := w.writes ++ [page], reads := w.reads }, r.2.1, r.2.2)

/-- One call `c.device.Read(buf)`: returns the buffer as the call leaves it. -/
def deviceRead {σ ε : Type} (d : Device σ ε) (w : World σ) (buf : List Nat) :
    World σ × List Nat × Nat × Option ε :=
  let r := d.Read w.dev buf
  ({ dev := r.1, writes := w.writes, reads := w.reads + 1 }, copy buf r.2.1, r.2.2.1, r.2.2.2)

/-- Result of a call that may panic. -/
inductive Outcome (α : Type) where
  | ret : α → Outcome α
  | panic : Outcome α
  deriving DecidableEq, Repr

/-! ## Page framing -/

/-- The local `headerPage1` of `writePage1`. -/
def headerPage1 : List Nat :=
  [0x02, 0x01, 0x01, 0x00, 0x00, 0x00, 0x00, 0x00,
   0x00, 0x00, 0x00, 0x00, 0x00, 0x00, 0x00, 0x00,
   0x42, 0x4d, 0xf6, 0x3c, 0x00, 0x00, 0x00, 0x00,
   0x00, 0x00, 0x36, 0x00, 0x00, 0x00, 0x28, 0x00,
   0x00, 0x00, 0x48, 0x00, 0x00, 0x00, 0x48, 0x00,
   0x00, 0x00, 0x01, 0x00, 0x18, 0x00, 0x00, 0x00,
   0x00, 0x00, 0xc0, 0x3c, 0x00, 0x00, 0xc4, 0x0e,
   0x00, 0x00, 0xc4, 0x0e, 0x00, 0x00, 0x00, 0x00,
   0x00, 0x00, 0x00, 0x00, 0x00, 0x00]

/-- The local `headerPage2` of `writePage2`. -/
def headerPage2 : List Nat :=
  [0x02, 0x01, 0x02, 0x00, 0x01, 0x00, 0x00, 0x00,
   0x00, 0x00, 0x00, 0x00, 0x00, 0x00, 0x00, 0x00]

/-- The page that `writePage1` and `writePage2` build from their header:
`make`, two `copy`s and the store `page[5] = byte(key + 1)`. -/
def buildPage (header : List Nat) (key : Int) (buf : List Nat) : List Nat :=
  let page := List.replicate pageSize 0
  let page := copy page header
  let page := copyAt page header.length buf
  page.set 5 (toByte (key + 1))

/-- Go `writePage1`: the error of the write is returned, the count is dropped. -/
def writePage1 {σ ε : Type} (d : Device σ ε) (w : World σ) (key : Int) (buf : List Nat) :
    World σ × Option ε :=
  let r := deviceWrite d w (buildPage headerPage1 key buf)
  (r.1, r.2.2)

/-- Go `writePage2`: the error of the write is returned, the count is dropped. -/
def writePage2 {σ ε : Type} (d : Device σ ε) (w : World σ) (key : Int) (buf : List Nat) :
    World σ × Option ε :=
  let r := deviceWrite d w (buildPage headerPage2 key buf)
  (r.1, r.2.2)

/-! ## Images -/

/-- Go `image.Point`. -/
structure Point where
  X : Int
  Y : Int
  deriving DecidableEq, Repr

/-- Go `image.Rectangle`. -/
structure Rectangle where
  Min : Point
  Max : Point
  deriving DecidableEq, Repr

/-- What `Color.RGBA()` returns: four `uint32` values. -/
structure RGBA where
  r : Nat
  g : Nat
  b : Nat
  a : Nat
  deriving DecidableEq, Repr

/-- The methods of `image.Image` that `SetKeyImage` calls: `Bounds()` and
`At(x, y).RGBA()`. -/
structure Image where
  Bounds : Rectangle
  At : Int → Int → RGBA

/-- Go `uint8(v >> 8)` for a `uint32` value `v`. -/
def channelByte (v : Nat) : Nat := (v >>> 8) % 256

/-- Go `s[i] = v` for an `int` index: `none` is the index-out-of-range panic. -/
def store {α : Type} (s : List α) (i : Int) (v : α) : Option (List α) :=
  if 0 ≤ i ∧ i < (s.length : Int) then some (s.set i.toNat v) else none

/-- The values of `for v := lo; v < hi; v++`. -/
def intRange (lo hi : Int) : List Int :=
  (List.range (hi - lo).toNat).map (fun (d : Nat) => lo + (d : Int))

/-- Body of the inner loop of `SetKeyImage` at the pixel `(x, y)`. -/
def SetKeyImage_storePixel (img : Image) (min : Point) (pixels : List Nat) (x y : Int) :
    Option (List Nat) :=
  let c := img.At x y
  let i : Int := ((y - min.Y) * (iconSize : Int) + ((iconSize : Int) - (x - min.X))) * 3
  (store pixels (i - 1) (channelByte c.r)).bind fun pixels =>
  (store pixels (i - 2) (channelByte c.g)).bind fun pixels =>
  store pixels (i - 3) (channelByte c.b)

/-- The pixel buffer that `SetKeyImage` fills before it writes: `none` when a
store panics. -/
def SetKeyImage_pixels (img : Image) : Option (List Nat) :=
  let min := img.Bounds.Min
  let max := img.Bounds.Max
  (intRange min.X max.X).foldlM
    (fun pixels x =>
      (intRange min.Y max.Y).foldlM
        (fun pixels y => SetKeyImage_storePixel img min pixels x y) pixels)
    (List.replicate (iconSize * iconSize * 3) 0)

/-! ## Operations of the client -/

/-- Go `Client.SetKeyImage`. -/
def SetKeyImage {σ ε : Type} (d : Device σ ε) (w : World σ) (key : Int) (img : Image) :
    World σ × Outcome (Option ε) :=
  match SetKeyImage_pixels img with
  | none => (w, Outcome.panic)
  | some pixels =>
    let r1 := writePage1 d w key (pixels.take (numFirstPagePixels * 3))
    match r1.2 with
    | some err => (r1.1, Outcome.ret (some err))
    | none =>
      let r2 := writePage2 d r1.1 key (pixels.drop (numFirstPagePixels * 3))
      (r2.1, Outcome.ret r2.2)

/-- The local `page1Bytes` of `SetKeyColor`. -/
def SetKeyColor_page1Bytes (r g b : Nat) : List Nat :=
  bytesRepeat [b, g, r] (3 * numFirstPagePixels)

/-- The local `page2Bytes` of `SetKeyColor`. -/
def SetKeyColor_page2Bytes (r g b : Nat) : List Nat :=
  bytesRepeat [b, g, r] (3 * numSecondPagePixels)

/-- Go `Client.SetKeyColor`. -/
def SetKeyColor {σ ε : Type} (d : Device σ ε) (w : World σ) (keyIndex : Int) (r g b : Nat) :
    World σ × Option ε :=
  let r1 := writePage1 d w keyIndex (SetKeyColor_page1Bytes r g b)
  match r1.2 with
  | some err => (r1.1, some err)
  | none => writePage2 d r1.1 keyIndex (SetKeyColor_page2Bytes r g b)

/-- The local `page1Bytes` of `ClearKey`. -/
def ClearKey_page1Bytes : List Nat := List.replicate (3 * 3 * numFirstPagePixels) 0

/-- The local `page2Bytes` of `ClearKey`. -/
def ClearKey_page2Bytes : List Nat := List.replicate (3 * 3 * numSecondPagePixels) 0

/-- Go `Client.ClearKey`. -/
def ClearKey {σ ε : Type} (d : Device σ ε) (w : World σ) (keyIndex : Int) :
    World σ × Option ε :=
  let r1 := writePage1 d w keyIndex ClearKey_page1Bytes
  match r1.2 with
  | some err => (r1.1, some err)
  | none => writePage2 d r1.1 keyIndex ClearKey_page2Bytes

/-- The loop of `Buttons` over the report `buf`: `none` when an index is out of
range. -/
def Buttons_decode (buf : List Nat) (buttons : List Bool) : Option (List Bool) :=
  (List.range numButtons).foldlM
    (fun (buttons : List Bool) (i : Nat) =>
      (buf[i + 1]?).bind fun v => store buttons (i : Int) (v == 1))
    buttons

/-- Go `Client.Buttons`: the pair `([]bool, error)`, a `nil` slice being `none`. -/
def Buttons {σ ε : Type} (d : Device σ ε) (w : World σ) :
    World σ × Outcome (Option (List Bool) × Option ε) :=
  let buttons := List.replicate numButtons false
  let buf := List.replicate eventSize 0
  let r := deviceRead d w buf
  match r.2.2.2 with
  | some err => (r.1, Outcome.ret (none, some err))
  | none =>
    match Buttons_decode r.2.1 buttons with
    | none => (r.1, Outcome.panic)
    | some buttons => (r.1, Outcome.ret (some buttons, none))

/-! ## Loop invariant of the pixel encoding -/

/-- Invariant of the two loops of `SetKeyImage`: the buffer `pixels` keeps its
length and, for every pixel `(dx, dy)` of the icon marked by `done`, holds the
blue, green and red bytes of that pixel. -/
def PixelsDone (img : Image) (done : Nat → Nat → Prop) (pixels : List Nat) : Prop :=
  pixels.length = 15552 ∧
  ∀ dx dy : Nat, dx < 72 → dy < 72 → done dx dy →
    pixels[3 * (dy * 72 + (71 - dx))]? =
      some (channelByte (img.At (img.Bounds.Min.X + dx) (img.Bounds.Min.Y + dy)).b) ∧
    pixels[3 * (dy * 72 + (71 - dx)) + 1]? =
      some (channelByte (img.At (img.Bounds.Min.X + dx) (img.Bounds.Min.Y + dy)).g) ∧
    pixels[3 * (dy * 72 + (71 - dx)) + 2]? =
      some (channelByte (img.At (img.Bounds.Min.X + dx) (img.Bounds.Min.Y + dy)).r)

/-! ## Panel operations -/

/-- Go `image.Rect(x0, y0, x1, y1)`: the rectangle with its corners put in
order. -/
def Rect (x0 y0 x1 y1 : Int) : Rectangle :=
  { Min := { X := if x0 > x1 then x1 else x0, Y := if y0 > y1 then y1 else y0 },
    Max := { X := if x0 > x1 then x0 else x1, Y := if y0 > y1 then y0 else y1 } }

/-- Whether the pixel `(x, y)` lies in the rectangle `r`: a Go rectangle holds
the points with `Min.X ≤ x < Max.X` and `Min.Y ≤ y < Max.Y`. -/
def inRect (r : Rectangle) (x y : Int) : Prop :=
  r.Min.X ≤ x ∧ x < r.Max.X ∧ r.Min.Y ≤ y ∧ y < r.Max.Y

/-- The argument of `SetPanelImage`: an image and, when its dynamic type
implements the interface `subImager`, its method `SubImage` (`none` when the
type assertion `img.(subImager)` fails). -/
structure PanelImage where
  image : Image
  SubImage : Option (Rectangle → Image)

/-- The pairs `(column, row)` in the order in which the two loops of
`SetPanelImage` visit them: `column` outer, `row` inner. -/
def SetPanelImage_cells : List (Nat × Nat) :=
  (List.range numColumns).flatMap fun column =>
    (List.range numRows).map fun row => (column, row)

/-- The rectangle that `SetPanelImage` crops at `(column, row)`. -/
def SetPanelImage_rect (column row : Nat) : Rectangle :=
  let startX : Int := ((numColumns : Int) - 1 - (column : Int)) * (iconSize : Int)
  let startY : Int := (row : Int) * (iconSize : Int)
  Rect startX startY (startX + (iconSize : Int)) (startY + (iconSize : Int))

/-- The key that `SetPanelImage` sets at `(column, row)`. -/
def SetPanelImage_key (column row : Nat) : Int :=
  (column : Int) + (row : Int) * (numColumns : Int)

/-- The loops of `SetPanelImage` over the cells still to visit: a panic or an
error of `SetKeyImage` ends them. -/
def SetPanelImage_loop {σ ε : Type} (d : Device σ ε) (subImg : Rectangle → Image) :
    List (Nat × Nat) → World σ → World σ × Outcome (Option ε)
  | [], w => (w, Outcome.ret none)
  | cell :: rest, w =>
    let crp := subImg (SetPanelImage_rect cell.1 cell.2)
    let r := SetKeyImage d w (SetPanelImage_key cell.1 cell.2) crp
    match r.2 with
    | Outcome.ret none => SetPanelImage_loop d subImg rest r.1
    | out => (r.1, out)

/-- Go `Client.SetPanelImage`. -/
def SetPanelImage {σ ε : Type} (d : Device σ ε) (w : World σ) (img : PanelImage) :
    World σ × Outcome (Option ε) :=
  match img.SubImage with
  | none => (w, Outcome.panic)
  | some subImg => SetPanelImage_loop d subImg SetPanelImage_cells w

/-- The loop of `ClearPanel` over the keys still to clear: an error of
`ClearKey` ends it. -/
def ClearPanel_loop {σ ε : Type} (d : Device σ ε) :
    List Nat → World σ → World σ × Option ε
  | [], w => (w, none)
  | i :: rest, w =>
    let r := ClearKey d w (i : Int)
    match r.2 with
    | some err => (r.1, some err)
    | none => ClearPanel_loop d rest r.1

/-- Go `Client.ClearPanel`. -/
def ClearPanel {σ ε : Type} (d : Device σ ε) (w : World σ) : World σ × Option ε :=
  ClearPanel_loop d (List.range numButtons) w

/-! ## Indices of the pixel encoding -/

/-- The index `i` that the inner loop of `SetKeyImage` computes at `(x, y)`. -/
def SetKeyImage_index (min : Point) (x y : Int) : Int :=
  ((y - min.Y) * (iconSize : Int) + ((iconSize : Int) - (x - min.X))) * 3

/-- The indices of the stores `pixels[i-1]`, `pixels[i-2]`, `pixels[i-3]` that
the loops of `SetKeyImage` make over the bounds of `img`, in order. -/
def SetKeyImage_stores (img : Image) : List Int :=
  (intRange img.Bounds.Min.X img.Bounds.Max.X).flatMap fun x =>
    (intRange img.Bounds.Min.Y img.Bounds.Max.Y).flatMap fun y =>
      [SetKeyImage_index img.Bounds.Min x y - 1, SetKeyImage_index img.Bounds.Min x y - 2,
        SetKeyImage_index img.Bounds.Min x y - 3]

/-- The three stores `pixels[i-1] = r`, `pixels[i-2] = g`, `pixels[i-3] = b` of
the inner loop of `SetKeyImage` at `(x, y)`, each as index and value, in
order. -/
def SetKeyImage_pixelStores (img : Image) (min : Point) (x y : Int) : List (Int × Nat) :=
  [(SetKeyImage_index min x y - 1, channelByte (img.At x y).r),
    (SetKeyImage_index min x y - 2, channelByte (img.At x y).g),
    (SetKeyImage_index min x y - 3, channelByte (img.At x y).b)]

/-- The stores that the loops of `SetKeyImage` make over the bounds of `img`,
each as index and value, in order. -/
def SetKeyImage_storeList (img : Image) : List (Int × Nat) :=
  (intRange img.Bounds.Min.X img.Bounds.Max.X).flatMap fun x =>
    (intRange img.Bounds.Min.Y img.Bounds.Max.Y).flatMap fun y =>
      SetKeyImage_pixelStores img img.Bounds.Min x y

/-- The Go stores `s[i] = v` of the list `l` made in order on the slice `s`:
`none` when one of them panics. -/
def applyStores (s : List Nat) (l : List (Int × Nat)) : Option (List Nat) :=
  l.foldlM (fun s iv => store s iv.1 iv.2) s

/-! ## Sequences of writes -/

/-- State of the transport after the pages `pages` have been written, in
order, from the state `s`. -/
def devAfter {σ ε : Type} (d : Device σ ε) (s : σ) (pages : List (List Nat)) : σ :=
  pages.foldl (fun s page => (d.Write s page).1) s

/-- The error that the write number `k` (counted from 0) returns when the pages
`pages` are written in order from the state `s`. -/
def errAt {σ ε : Type} (d : Device σ ε) (s : σ) (pages : List (List Nat)) (k : Nat) :
    Option ε :=
  (d.Write (devAfter d s (pages.take k)) (pages.getD k [])).2.2

/-- Writing the pages `pages` in order and stopping after the first write that
returns an error: the common shape of the operations that write several
pages. -/
def writeSeq {σ ε : Type} (d : Device σ ε) : List (List Nat) → World σ → World σ × Option ε
  | [], w => (w, none)
  | page :: rest, w =>
    let r := deviceWrite d w page
    match r.2.2 with
    | some err => (r.1, some err)
    | none => writeSeq d rest r.1

/-- The two pages of `ClearKey` for the key `key`. -/
def ClearKey_pageList (key : Int) : List (List Nat) :=
  [buildPage headerPage1 key ClearKey_page1Bytes,
    buildPage headerPage2 key ClearKey_page2Bytes]

/-- The two pages of `SetKeyColor` for the key `key` and the colour
`(r, g, b)`. -/
def SetKeyColor_pageList (key : Int) (r g b : Nat) : List (List Nat) :=
  [buildPage headerPage1 key (SetKeyColor_page1Bytes r g b),
    buildPage headerPage2 key (SetKeyColor_page2Bytes r g b)]

/-- The pages that a full run of `ClearPanel` writes, in order. -/
def ClearPanel_pageList : List (List Nat) :=
  (List.range numButtons).flatMap fun i => ClearKey_pageList (i : Int)

/-- The two pages of `SetKeyImage` for the key `key` and the pixel buffer
`pixels`. -/
def SetKeyImage_pageList (key : Int) (pixels : List Nat) : List (List Nat) :=
  [buildPage headerPage1 key (pixels.take (numFirstPagePixels * 3)),
    buildPage headerPage2 key (pixels.drop (numFirstPagePixels * 3))]

/-- The pages that a full run of `SetPanelImage` writes, in order, when `px
column row` is the pixel buffer of the crop at `(column, row)`. -/
def SetPanelImage_pageList (px : Nat → Nat → List Nat) : List (List Nat) :=
  SetPanelImage_cells.flatMap fun cell =>
    SetKeyImage_pageList (SetPanelImage_key cell.1 cell.2) (px cell.1 cell.2)

/-! ## Concrete inputs -/

/-- A transport on which every call succeeds: a read stores the report
`report`, a write takes the whole page. -/
def okDevice (report : List Nat) : Device Unit Unit where
  Read := fun s p => (s, report, min report.length p.length, none)
  Write := fun s p => (s, p.length, none)
  Close := fun s => (s, none)

/-- The world before any call. -/
def world0 : World Unit := { dev := (), writes := [], reads := 0 }

/-- A 72x72 image at the origin `(mx, my)`, every pixel of the 16-bit colour `c`. -/
def uniformImage (mx my : Int) (c : RGBA) : Image where
  Bounds := { Min := { X := mx, Y := my }, Max := { X := mx + 72, Y := my + 72 } }
  At := fun _ _ => c

/-- Opaque red as `RGBA()` returns it. -/
def red16 : RGBA := { r := 0xffff, g := 0, b := 0, a := 0xffff }

/-- A transport that counts its writes and whose write number `m` (counted
from 1) fails with the error `e` and takes no byte; its reads fail with `e`. -/
def failingDevice (m e : Nat) : Device Nat Nat where
  Read := fun s _ => (s, [], 0, some e)
  Write := fun s p =>
    (s + 1, if s + 1 = m then 0 else p.length, if s + 1 = m then some e else none)
  Close := fun s => (s, none)

/-- The world before any call on a `failingDevice`. -/
def worldN : World Nat := { dev := 0, writes := [], reads := 0 }

/-- A transport whose writes take 100 bytes of every page and return no
error, and whose reads store two bytes and return no error. -/
def shortDevice : Device Unit Unit where
  Read := fun s _ => (s, [0, 1], 2, none)
  Write := fun s _ => (s, 100, none)
  Close := fun s => (s, none)

/-- The crop of `samplePanel` with the bounds `r`. -/
def sampleSubImage (r : Rectangle) : Image where
  Bounds := r
  At := fun x y => { r := (x.toNat + y.toNat) * 256, g := 0, b := 0, a := 0xffff }

/-- A 360x216 panel image whose `SubImage` returns the crop with the bounds
asked for; the red channel of a pixel tells its column and row. -/
def samplePanel : PanelImage where
  image :=
    { Bounds := { Min := { X := 0, Y := 0 }, Max := { X := 360, Y := 216 } },
      At := fun x y => { r := (x.toNat + y.toNat) * 256, g := 0, b := 0, a := 0xffff } }
  SubImage := some sampleSubImage

/-- A red image of 73x2 pixels at the origin: one pixel too wide for a key. -/
def wideImage : Image where
  Bounds := { Min := { X := 0, Y := 0 }, Max := { X := 73, Y := 2 } }
  At := fun _ _ => red16

/-- A report in which the buttons 0, 3 and 14 are pressed; the bytes 0 and 16
are set too. -/
def sampleReport : List Nat := [1, 1, 0, 0, 1, 0, 0, 0, 0, 0, 0, 0, 0, 0, 0, 1, 1]

end Streamdeck

namespace Streamdeck

/-! ## Page framing: the shape of a page -/

theorem copy_length (dst src : List Nat) : (copy dst src).length = dst.length := by
  simp only [copy, List.length_append, List.length_take, List.length_drop]
  omega

/-- The page built from a header of at least six and at most `pageSize` bytes:
the header with the key byte, the payload cut to the room left, zeros. -/
theorem buildPage_eq (header buf : List Nat) (key : Int)
    (h5 : 5 < header.length) (hl : header.length ≤ pageSize) :
    buildPage header key buf =
      header.set 5 (toByte (key + 1)) ++
        (buf.take (pageSize - header.length) ++
          List.replicate (pageSize - header.length - buf.length) 0) := by
  have h1 : copy (List.replicate pageSize 0) header =
      header ++ List.replicate (pageSize - header.length) 0 := by
    simp [copy, List.take_of_length_le hl]
  have h2 : copyAt (header ++ List.replicate (pageSize - header.length) 0) header.length buf =
      header ++ (buf.take (pageSize - header.length) ++
          List.replicate (pageSize - header.length - buf.length) 0) := by
    simp [copyAt, copy]
  simp only [buildPage, h1, h2]
  rw [List.set_append_left _ _ h5]

theorem toByte_key (k : Nat) (hk : k < 255) : toByte ((k : Int) + 1) = k + 1 := by
  unfold toByte
  omega

theorem headerPage1_length : headerPage1.length = 70 := by rfl

theorem headerPage2_length : headerPage2.length = 16 := by rfl

theorem buildPage1_eq (key : Int) (buf : List Nat) :
    buildPage headerPage1 key buf =
      headerPage1.set 5 (toByte (key + 1)) ++
        (buf.take 8121 ++ List.replicate (8121 - buf.length) 0) := by
  rw [buildPage_eq headerPage1 buf key (by rw [headerPage1_length]; decide)
    (by rw [headerPage1_length]; decide), headerPage1_length]
  rfl

theorem buildPage2_eq (key : Int) (buf : List Nat) :
    buildPage headerPage2 key buf =
      headerPage2.set 5 (toByte (key + 1)) ++
        (buf.take 8175 ++ List.replicate (8175 - buf.length) 0) := by
  rw [buildPage_eq headerPage2 buf key (by rw [headerPage2_length]; decide)
    (by rw [headerPage2_length]; decide), headerPage2_length]
  rfl

theorem buildPage_length (header buf : List Nat) (key : Int) :
    (buildPage header key buf).length = 8191 := by
  have hp : pageSize = 8191 := rfl
  simp only [buildPage, copyAt, List.length_set, List.length_append, List.length_take,
    copy_length, List.length_drop, List.length_replicate]
  omega

theorem buildPage1_key (key : Int) (buf : List Nat) :
    (buildPage headerPage1 key buf)[5]? = some (toByte (key + 1)) := by
  rw [buildPage1_eq, List.getElem?_append_left (by simp [headerPage1_length])]
  simp [headerPage1]

theorem buildPage2_key (key : Int) (buf : List Nat) :
    (buildPage headerPage2 key buf)[5]? = some (toByte (key + 1)) := by
  rw [buildPage2_eq, List.getElem?_append_left (by simp [headerPage2_length])]
  simp [headerPage2]

theorem buildPage1_take (key : Int) (buf : List Nat) :
    (buildPage headerPage1 key buf).take 70 = headerPage1.set 5 (toByte (key + 1)) := by
  rw [buildPage1_eq, List.take_append_of_le_length (by simp [headerPage1_length])]
  exact List.take_of_length_le (by simp [headerPage1_length])

theorem buildPage2_take (key : Int) (buf : List Nat) :
    (buildPage headerPage2 key buf).take 16 = headerPage2.set 5 (toByte (key + 1)) := by
  rw [buildPage2_eq, List.take_append_of_le_length (by simp [headerPage2_length])]
  exact List.take_of_length_le (by simp [headerPage2_length])

theorem buildPage1_drop (key : Int) (buf : List Nat) :
    (buildPage headerPage1 key buf).drop 70 =
      buf.take 8121 ++ List.replicate (8121 - buf.length) 0 := by
  rw [buildPage1_eq]
  exact List.drop_left' (by simp [headerPage1_length])

theorem buildPage2_drop (key : Int) (buf : List Nat) :
    (buildPage headerPage2 key buf).drop 16 =
      buf.take 8175 ++ List.replicate (8175 - buf.length) 0 := by
  rw [buildPage2_eq]
  exact List.drop_left' (by simp [headerPage2_length])

theorem writePage1_writes {σ ε : Type} (d : Device σ ε) (w : World σ) (key : Int)
    (buf : List Nat) :
    (writePage1 d w key buf).1.writes = w.writes ++ [buildPage headerPage1 key buf] := rfl

theorem writePage2_writes {σ ε : Type} (d : Device σ ε) (w : World σ) (key : Int)
    (buf : List Nat) :
    (writePage2 d w key buf).1.writes = w.writes ++ [buildPage headerPage2 key buf] := rfl

/-- Index `off + j` of a page whose part after the first `off` bytes is known. -/
theorem getElem?_of_drop (page rest : List Nat) (off j : Nat) (h : page.drop off = rest) :
    page[off + j]? = rest[j]? := by
  rw [← h, List.getElem?_drop]

end Streamdeck

namespace Streamdeck

/-! ## Claims on the page writers -/

/-- C1: for every key `k` in `[0,15)` and every payload of length
`n ≤ 8191 - 70`, `writePage1` hands the transport exactly one page, of length
8191: its first 70 bytes are `headerPage1` with byte 5 replaced by `k + 1`, the
next `n` bytes are the payload, and every byte from offset `70 + n` to 8190 is
zero. -/
theorem writePage1_contract {σ ε : Type} (d : Device σ ε) (w : World σ) (k : Nat)
    (payload : List Nat) (hk : k < 15) (hn : payload.length ≤ 8191 - 70) :
    ∃ page : List Nat,
      (writePage1 d w (k : Int) payload).1.writes = w.writes ++ [page] ∧
      (writePage1 d w (k : Int) payload).1.dev = (d.Write w.dev page).1 ∧
      page.length = 8191 ∧
      page.take 70 = headerPage1.set 5 (k + 1) ∧
      page[5]? = some (k + 1) ∧
      (page.drop 70).take payload.length = payload ∧
      (∀ i, 70 + payload.length ≤ i → i < 8191 → page[i]? = some 0) := by
  have hb : toByte ((k : Int) + 1) = k + 1 := toByte_key k (by omega)
  have hd := buildPage1_drop (k : Int) payload
  rw [List.take_of_length_le (by omega)] at hd
  refine ⟨buildPage headerPage1 (k : Int) payload, rfl, rfl, buildPage_length _ _ _, ?_, ?_, ?_, ?_⟩
  · rw [buildPage1_take, hb]
  · rw [buildPage1_key, hb]
  · rw [hd, List.take_left']
    rfl
  · intro i h1 h2
    obtain ⟨j, rfl⟩ : ∃ j, i = 70 + j := ⟨i - 70, by omega⟩
    rw [getElem?_of_drop _ _ 70 j hd, List.getElem?_append_right (by omega),
      List.getElem?_replicate_of_lt (by omega)]

/-- Instance of C1: key 0 and the payload `[1, 2, 3]`. -/
theorem writePage1_contract_witness :
    (0 < 15 ∧ [1, 2, 3].length ≤ 8191 - 70) ∧
    ∃ page : List Nat,
      (writePage1 (okDevice []) world0 ((0 : Nat) : Int) [1, 2, 3]).1.writes =
        world0.writes ++ [page] ∧
      (writePage1 (okDevice []) world0 ((0 : Nat) : Int) [1, 2, 3]).1.dev =
        ((okDevice []).Write world0.dev page).1 ∧
      page.length = 8191 ∧
      page.take 70 = headerPage1.set 5 (0 + 1) ∧
      page[5]? = some (0 + 1) ∧
      (page.drop 70).take [1, 2, 3].length = [1, 2, 3] ∧
      (∀ i, 70 + [1, 2, 3].length ≤ i → i < 8191 → page[i]? = some 0) :=
  ⟨⟨by decide, by decide⟩,
    writePage1_contract (okDevice []) world0 0 [1, 2, 3] (by decide) (by decide)⟩

/-- C2: for every key `k` in `[0,15)` and every payload of length
`n ≤ 8191 - 16`, `writePage2` hands the transport exactly one page, of length
8191: its first 16 bytes are `headerPage2` with byte 5 replaced by `k + 1`, the
next `n` bytes are the payload, and every byte from offset `16 + n` to 8190 is
zero. -/
theorem writePage2_contract {σ ε : Type} (d : Device σ ε) (w : World σ) (k : Nat)
    (payload : List Nat) (hk : k < 15) (hn : payload.length ≤ 8191 - 16) :
    ∃ page : List Nat,
      (writePage2 d w (k : Int) payload).1.writes = w.writes ++ [page] ∧
      (writePage2 d w (k : Int) payload).1.dev = (d.Write w.dev page).1 ∧
      page.length = 8191 ∧
      page.take 16 = headerPage2.set 5 (k + 1) ∧
      page[5]? = some (k + 1) ∧
      (page.drop 16).take payload.length = payload ∧
      (∀ i, 16 + payload.length ≤ i → i < 8191 → page[i]? = some 0) := by
  have hb : toByte ((k : Int) + 1) = k + 1 := toByte_key k (by omega)
  have hd := buildPage2_drop (k : Int) payload
  rw [List.take_of_length_le (by omega)] at hd
  refine ⟨buildPage headerPage2 (k : Int) payload, rfl, rfl, buildPage_length _ _ _, ?_, ?_, ?_, ?_⟩
  · rw [buildPage2_take, hb]
  · rw [buildPage2_key, hb]
  · rw [hd, List.take_left']
    rfl
  · intro i h1 h2
    obtain ⟨j, rfl⟩ : ∃ j, i = 16 + j := ⟨i - 16, by omega⟩
    rw [getElem?_of_drop _ _ 16 j hd, List.getElem?_append_right (by omega),
      List.getElem?_replicate_of_lt (by omega)]

/-- Instance of C2: key 14 and the payload `[7, 8]`. -/
theorem writePage2_contract_witness :
    (14 < 15 ∧ [7, 8].length ≤ 8191 - 16) ∧
    ∃ page : List Nat,
      (writePage2 (okDevice []) world0 ((14 : Nat) : Int) [7, 8]).1.writes =
        world0.writes ++ [page] ∧
      (writePage2 (okDevice []) world0 ((14 : Nat) : Int) [7, 8]).1.dev =
        ((okDevice []).Write world0.dev page).1 ∧
      page.length = 8191 ∧
      page.take 16 = headerPage2.set 5 (14 + 1) ∧
      page[5]? = some (14 + 1) ∧
      (page.drop 16).take [7, 8].length = [7, 8] ∧
      (∀ i, 16 + [7, 8].length ≤ i → i < 8191 → page[i]? = some 0) :=
  ⟨⟨by decide, by decide⟩,
    writePage2_contract (okDevice []) world0 14 [7, 8] (by decide) (by decide)⟩

/-- C6: for every key `k` in `[0,15)` and every payload, of any length, the
pages of `writePage1` and of `writePage2` have length 8191 and byte 5 equal to
`k + 1`; after the header a page holds the payload cut to the room left (8121
bytes on page 1, 8175 on page 2) and then zeros. -/
theorem writePage_length_key {σ ε : Type} (d : Device σ ε) (w : World σ) (k : Nat)
    (payload : List Nat) (hk : k < 15) :
    ∃ p1 p2 : List Nat,
      (writePage1 d w (k : Int) payload).1.writes = w.writes ++ [p1] ∧
      (writePage2 d w (k : Int) payload).1.writes = w.writes ++ [p2] ∧
      p1.length = 8191 ∧ p1[5]? = some (k + 1) ∧
      p2.length = 8191 ∧ p2[5]? = some (k + 1) ∧
      p1.drop 70 = payload.take 8121 ++ List.replicate (8121 - payload.length) 0 ∧
      p2.drop 16 = payload.take 8175 ++ List.replicate (8175 - payload.length) 0 := by
  have hb : toByte ((k : Int) + 1) = k + 1 := toByte_key k (by omega)
  refine ⟨buildPage headerPage1 (k : Int) payload, buildPage headerPage2 (k : Int) payload,
    rfl, rfl, buildPage_length _ _ _, ?_, buildPage_length _ _ _, ?_,
    buildPage1_drop _ _, buildPage2_drop _ _⟩
  · rw [buildPage1_key, hb]
  · rw [buildPage2_key, hb]

/-- Instance of C6: key 7 and a payload of 9000 bytes, longer than a page. -/
theorem writePage_length_key_witness :
    7 < 15 ∧
    ∃ p1 p2 : List Nat,
      (writePage1 (okDevice []) world0 ((7 : Nat) : Int) (List.replicate 9000 9)).1.writes =
        world0.writes ++ [p1] ∧
      (writePage2 (okDevice []) world0 ((7 : Nat) : Int) (List.replicate 9000 9)).1.writes =
        world0.writes ++ [p2] ∧
      p1.length = 8191 ∧ p1[5]? = some (7 + 1) ∧
      p2.length = 8191 ∧ p2[5]? = some (7 + 1) ∧
      p1.drop 70 = (List.replicate 9000 9).take 8121 ++
        List.replicate (8121 - (List.replicate 9000 9).length) 0 ∧
      p2.drop 16 = (List.replicate 9000 9).take 8175 ++
        List.replicate (8175 - (List.replicate 9000 9).length) 0 :=
  ⟨by decide, writePage_length_key (okDevice []) world0 7 (List.replicate 9000 9) (by decide)⟩

end Streamdeck

namespace Streamdeck

/-! ## Pixel encoding: the loops of `SetKeyImage` -/

theorem store_natCast {α : Type} (s : List α) (i : Nat) (v : α) (h : i < s.length) :
    store s (i : Int) v = some (s.set i v) := by
  simp [store, h]

theorem storePixel_eq (img : Image) (min : Point) (pixels : List Nat) (dx dy : Nat)
    (hx : dx < 72) (hy : dy < 72) (hl : pixels.length = 15552) :
    SetKeyImage_storePixel img min pixels (min.X + dx) (min.Y + dy) =
      some (((pixels.set (3 * (dy * 72 + (71 - dx)) + 2)
          (channelByte (img.At (min.X + dx) (min.Y + dy)).r)).set
        (3 * (dy * 72 + (71 - dx)) + 1)
          (channelByte (img.At (min.X + dx) (min.Y + dy)).g)).set
        (3 * (dy * 72 + (71 - dx)))
          (channelByte (img.At (min.X + dx) (min.Y + dy)).b)) := by
  have hi : ((iconSize : Nat) : Int) = 72 := rfl
  have e1 : ((min.Y + dy - min.Y) * ((iconSize : Nat) : Int) +
      (((iconSize : Nat) : Int) - (min.X + dx - min.X))) * 3 - 1 =
      ((3 * (dy * 72 + (71 - dx)) + 2 : Nat) : Int) := by
    rw [hi]; omega
  have e2 : ((min.Y + dy - min.Y) * ((iconSize : Nat) : Int) +
      (((iconSize : Nat) : Int) - (min.X + dx - min.X))) * 3 - 2 =
      ((3 * (dy * 72 + (71 - dx)) + 1 : Nat) : Int) := by
    rw [hi]; omega
  have e3 : ((min.Y + dy - min.Y) * ((iconSize : Nat) : Int) +
      (((iconSize : Nat) : Int) - (min.X + dx - min.X))) * 3 - 3 =
      ((3 * (dy * 72 + (71 - dx)) : Nat) : Int) := by
    rw [hi]; omega
  unfold SetKeyImage_storePixel
  simp only [e1, e2, e3]
  rw [store_natCast _ _ _ (by omega)]
  simp only [Option.bind]
  rw [store_natCast _ _ _ (by rw [List.length_set]; omega)]
  simp only [Option.bind]
  rw [store_natCast _ _ _ (by rw [List.length_set, List.length_set]; omega)]

theorem getElem?_set3 (p : List Nat) (a r g b j : Nat) (h : a + 2 < p.length) :
    (((p.set (a + 2) r).set (a + 1) g).set a b)[j]? =
      if j = a then some b else if j = a + 1 then some g else if j = a + 2 then some r
      else p[j]? := by
  simp only [List.getElem?_set, List.length_set]
  by_cases h0 : a = j
  · subst h0; simp; omega
  · by_cases h1 : a + 1 = j
    · subst h1; simp; omega
    · by_cases h2 : a + 2 = j
      · subst h2; simp; omega
      · have h0' : ¬ j = a := fun e => h0 e.symm
        have h1' : ¬ j = a + 1 := fun e => h1 e.symm
        have h2' : ¬ j = a + 2 := fun e => h2 e.symm
        simp [h0, h1, h2, h0', h1', h2']

theorem PixelsDone.mono {img : Image} {P Q : Nat → Nat → Prop} {p : List Nat}
    (h : PixelsDone img P p) (hq : ∀ dx dy, dx < 72 → dy < 72 → Q dx dy → P dx dy) :
    PixelsDone img Q p :=
  ⟨h.1, fun dx dy hx hy hd => h.2 dx dy hx hy (hq dx dy hx hy hd)⟩

theorem PixelsDone.step {img : Image} {P : Nat → Nat → Prop} {p : List Nat}
    (h : PixelsDone img P p) (dx dy : Nat) (hx : dx < 72) (hy : dy < 72) :
    ∃ q, SetKeyImage_storePixel img img.Bounds.Min p
        (img.Bounds.Min.X + dx) (img.Bounds.Min.Y + dy) = some q ∧
      PixelsDone img (fun ex ey => P ex ey ∨ (ex = dx ∧ ey = dy)) q := by
  refine ⟨_, storePixel_eq img img.Bounds.Min p dx dy hx hy h.1, ?_, ?_⟩
  · simp only [List.length_set]; exact h.1
  · intro ex ey hex hey hd
    have hlen : 3 * (dy * 72 + (71 - dx)) + 2 < p.length := by rw [h.1]; omega
    by_cases hsame : ex = dx ∧ ey = dy
    · obtain ⟨rfl, rfl⟩ := hsame
      simp [getElem?_set3 _ _ _ _ _ _ hlen]
    · have hP : P ex ey := by
        rcases hd with hd | hd
        · exact hd
        · exact absurd hd hsame
      have hold := h.2 ex ey hex hey hP
      have hne : ex ≠ dx ∨ ey ≠ dy := by
        by_contra hc
        push_neg at hc
        exact hsame hc
      rw [getElem?_set3 _ _ _ _ _ _ hlen, getElem?_set3 _ _ _ _ _ _ hlen,
        getElem?_set3 _ _ _ _ _ _ hlen]
      rw [if_neg (by omega), if_neg (by omega), if_neg (by omega),
        if_neg (by omega), if_neg (by omega), if_neg (by omega),
        if_neg (by omega), if_neg (by omega), if_neg (by omega)]
      exact hold

theorem intRange_icon (lo hi : Int) (h : hi = lo + 72) :
    intRange lo hi = (List.range 72).map (fun (d : Nat) => lo + (d : Int)) := by
  have : (hi - lo).toNat = 72 := by omega
  simp only [intRange, this]

theorem PixelsDone.column {img : Image} {P : Nat → Nat → Prop} (dx : Nat) (hx : dx < 72)
    (n : Nat) (hn : n ≤ 72) {p : List Nat} (h : PixelsDone img P p) :
    ∃ q, (List.range n).foldlM (fun pixels (d : Nat) =>
          SetKeyImage_storePixel img img.Bounds.Min pixels
            (img.Bounds.Min.X + dx) (img.Bounds.Min.Y + (d : Int))) p = some q ∧
      PixelsDone img (fun ex ey => P ex ey ∨ (ex = dx ∧ ey < n)) q := by
  induction n with
  | zero =>
    refine ⟨p, rfl, h.mono ?_⟩
    intro ex ey hex hey hd
    rcases hd with hd | hd
    · exact hd
    · omega
  | succ n ih =>
    obtain ⟨q, hq, hdone⟩ := ih (by omega)
    obtain ⟨q2, hq2, hdone2⟩ := hdone.step dx n hx (by omega)
    refine ⟨q2, ?_, hdone2.mono ?_⟩
    · rw [List.range_succ, List.foldlM_append, hq]
      simpa using hq2
    · intro ex ey hex hey hd
      rcases hd with hd | hd
      · exact Or.inl (Or.inl hd)
      · by_cases he : ey = n
        · exact Or.inr ⟨hd.1, he⟩
        · exact Or.inl (Or.inr ⟨hd.1, by omega⟩)

theorem PixelsDone.columns {img : Image} (hY : img.Bounds.Max.Y = img.Bounds.Min.Y + 72)
    (n : Nat) (hn : n ≤ 72) {p : List Nat} (h : PixelsDone img (fun _ _ => False) p) :
    ∃ q, (List.range n).foldlM (fun pixels (d : Nat) =>
          (intRange img.Bounds.Min.Y img.Bounds.Max.Y).foldlM
            (fun pixels y => SetKeyImage_storePixel img img.Bounds.Min pixels
              (img.Bounds.Min.X + (d : Int)) y) pixels) p = some q ∧
      PixelsDone img (fun ex _ => ex < n) q := by
  induction n with
  | zero =>
    refine ⟨p, rfl, h.mono ?_⟩
    intro ex ey hex hey hd
    omega
  | succ n ih =>
    obtain ⟨q, hq, hdone⟩ := ih (by omega)
    obtain ⟨q2, hq2, hdone2⟩ := hdone.column n (by omega) 72 (le_refl 72)
    refine ⟨q2, ?_, hdone2.mono ?_⟩
    · rw [List.range_succ, List.foldlM_append, hq]
      simp only [List.foldlM_cons, List.foldlM_nil, Option.some_bind, Option.bind_eq_bind]
      rw [intRange_icon _ _ hY, List.foldlM_map]
      simpa using hq2
    · intro ex ey hex hey hd
      by_cases he : ex = n
      · exact Or.inr ⟨he, by omega⟩
      · exact Or.inl (by omega)

theorem SetKeyImage_pixels_done (img : Image)
    (hX : img.Bounds.Max.X = img.Bounds.Min.X + 72)
    (hY : img.Bounds.Max.Y = img.Bounds.Min.Y + 72) :
    ∃ pixels, SetKeyImage_pixels img = some pixels ∧
      PixelsDone img (fun _ _ => True) pixels := by
  have h0 : PixelsDone img (fun _ _ => False) (List.replicate (iconSize * iconSize * 3) 0) :=
    ⟨by rw [List.length_replicate]; rfl, fun _ _ _ _ hd => absurd hd id⟩
  obtain ⟨q, hq, hdone⟩ := PixelsDone.columns hY 72 (le_refl 72) h0
  refine ⟨q, ?_, hdone.mono ?_⟩
  · unfold SetKeyImage_pixels
    simp only []
    rw [intRange_icon _ _ hX, List.foldlM_map]
    exact hq
  · intro ex ey hex _ _
    exact hex

end Streamdeck

namespace Streamdeck

/-! ## Claims on `SetKeyImage` -/

theorem channelByte_of_lt (v : Nat) (h : v < 65536) : channelByte v = v >>> 8 := by
  unfold channelByte
  rw [Nat.shiftRight_eq_div_pow]
  exact Nat.mod_eq_of_lt (by omega)

/-- What `SetKeyImage` does once its pixel buffer is built, on a transport whose
writes succeed: two writes, page 1 then page 2, and a `nil` error. -/
theorem SetKeyImage_of_pixels {σ ε : Type} (d : Device σ ε) (w : World σ) (key : Int)
    (img : Image) (pixels : List Nat) (hp : SetKeyImage_pixels img = some pixels)
    (hok : ∀ s page, (d.Write s page).2.2 = none) :
    (SetKeyImage d w key img).1.writes =
        w.writes ++ [buildPage headerPage1 key (pixels.take (numFirstPagePixels * 3)),
          buildPage headerPage2 key (pixels.drop (numFirstPagePixels * 3))] ∧
      (SetKeyImage d w key img).2 = Outcome.ret none := by
  have h1 : (writePage1 d w key (pixels.take (numFirstPagePixels * 3))).2 = none := hok _ _
  have h2 : (writePage2 d (writePage1 d w key (pixels.take (numFirstPagePixels * 3))).1 key
      (pixels.drop (numFirstPagePixels * 3))).2 = none := hok _ _
  simp only [SetKeyImage, hp, h1, h2]
  simp [writePage2_writes, writePage1_writes]

/-- C3: for every 72x72 image with bounds minimum `(mx, my)` and 16-bit channel
values, and every `dx`, `dy` in `[0,72)`, the 15552-byte pixel buffer that
`SetKeyImage` builds holds at the offsets `3*(dy*72 + (71-dx)) + 0, +1, +2` the
blue, green and red channel of the pixel `(mx+dx, my+dy)`, each shifted right
by 8; with `i = (dy*72 + (72-dx))*3` these are the offsets `i-3`, `i-2`, `i-1`. -/
theorem SetKeyImage_pixels_layout (img : Image) (mx my : Int)
    (hmin : img.Bounds.Min = { X := mx, Y := my })
    (hmax : img.Bounds.Max = { X := mx + 72, Y := my + 72 })
    (h16 : ∀ dx dy : Nat, dx < 72 → dy < 72 →
      (img.At (mx + dx) (my + dy)).r < 65536 ∧ (img.At (mx + dx) (my + dy)).g < 65536 ∧
        (img.At (mx + dx) (my + dy)).b < 65536) :
    ∃ pixels : List Nat, SetKeyImage_pixels img = some pixels ∧ pixels.length = 15552 ∧
      ∀ dx dy : Nat, dx < 72 → dy < 72 →
        pixels[3 * (dy * 72 + (71 - dx)) + 0]? = some ((img.At (mx + dx) (my + dy)).b >>> 8) ∧
        pixels[3 * (dy * 72 + (71 - dx)) + 1]? = some ((img.At (mx + dx) (my + dy)).g >>> 8) ∧
        pixels[3 * (dy * 72 + (71 - dx)) + 2]? = some ((img.At (mx + dx) (my + dy)).r >>> 8) ∧
        pixels[(dy * 72 + (72 - dx)) * 3 - 1]? = some ((img.At (mx + dx) (my + dy)).r >>> 8) ∧
        pixels[(dy * 72 + (72 - dx)) * 3 - 2]? = some ((img.At (mx + dx) (my + dy)).g >>> 8) ∧
        pixels[(dy * 72 + (72 - dx)) * 3 - 3]? = some ((img.At (mx + dx) (my + dy)).b >>> 8) := by
  obtain ⟨pixels, hp, hlen, hdone⟩ := SetKeyImage_pixels_done img
    (by rw [hmax, hmin]) (by rw [hmax, hmin])
  refine ⟨pixels, hp, hlen, ?_⟩
  intro dx dy hx hy
  obtain ⟨hb, hg, hr⟩ := hdone dx dy hx hy trivial
  obtain ⟨h16r, h16g, h16b⟩ := h16 dx dy hx hy
  rw [hmin] at hb hg hr
  simp only [] at hb hg hr
  rw [channelByte_of_lt _ h16b] at hb
  rw [channelByte_of_lt _ h16g] at hg
  rw [channelByte_of_lt _ h16r] at hr
  have e1 : (dy * 72 + (72 - dx)) * 3 - 1 = 3 * (dy * 72 + (71 - dx)) + 2 := by omega
  have e2 : (dy * 72 + (72 - dx)) * 3 - 2 = 3 * (dy * 72 + (71 - dx)) + 1 := by omega
  have e3 : (dy * 72 + (72 - dx)) * 3 - 3 = 3 * (dy * 72 + (71 - dx)) := by omega
  rw [e1, e2, e3]
  exact ⟨hb, hg, hr, hr, hg, hb⟩

/-- Instance of C3: the red 72x72 image at the origin `(3, -4)`. -/
theorem SetKeyImage_pixels_layout_witness :
    ((uniformImage 3 (-4) red16).Bounds.Min = { X := 3, Y := -4 } ∧
      (uniformImage 3 (-4) red16).Bounds.Max = { X := 3 + 72, Y := -4 + 72 } ∧
      ∀ dx dy : Nat, dx < 72 → dy < 72 →
        ((uniformImage 3 (-4) red16).At (3 + dx) (-4 + dy)).r < 65536 ∧
        ((uniformImage 3 (-4) red16).At (3 + dx) (-4 + dy)).g < 65536 ∧
        ((uniformImage 3 (-4) red16).At (3 + dx) (-4 + dy)).b < 65536) ∧
    ∃ pixels : List Nat,
      SetKeyImage_pixels (uniformImage 3 (-4) red16) = some pixels ∧ pixels.length = 15552 ∧
      ∀ dx dy : Nat, dx < 72 → dy < 72 →
        pixels[3 * (dy * 72 + (71 - dx)) + 0]? =
          some (((uniformImage 3 (-4) red16).At (3 + dx) (-4 + dy)).b >>> 8) ∧
        pixels[3 * (dy * 72 + (71 - dx)) + 1]? =
          some (((uniformImage 3 (-4) red16).At (3 + dx) (-4 + dy)).g >>> 8) ∧
        pixels[3 * (dy * 72 + (71 - dx)) + 2]? =
          some (((uniformImage 3 (-4) red16).At (3 + dx) (-4 + dy)).r >>> 8) ∧
        pixels[(dy * 72 + (72 - dx)) * 3 - 1]? =
          some (((uniformImage 3 (-4) red16).At (3 + dx) (-4 + dy)).r >>> 8) ∧
        pixels[(dy * 72 + (72 - dx)) * 3 - 2]? =
          some (((uniformImage 3 (-4) red16).At (3 + dx) (-4 + dy)).g >>> 8) ∧
        pixels[(dy * 72 + (72 - dx)) * 3 - 3]? =
          some (((uniformImage 3 (-4) red16).At (3 + dx) (-4 + dy)).b >>> 8) :=
  ⟨⟨rfl, rfl, fun _ _ _ _ =>
      ⟨(by decide : (0xffff : Nat) < 65536), (by decide : (0 : Nat) < 65536),
        (by decide : (0 : Nat) < 65536)⟩⟩,
    SetKeyImage_pixels_layout (uniformImage 3 (-4) red16) 3 (-4) rfl rfl
      (fun _ _ _ _ =>
      ⟨(by decide : (0xffff : Nat) < 65536), (by decide : (0 : Nat) < 65536),
        (by decide : (0 : Nat) < 65536)⟩)⟩

/-- C4: for every key and every 72x72 image, on a transport whose writes
succeed, `SetKeyImage` issues exactly two writes, page 1 then page 2, and
returns no error; page 1 carries the first `numFirstPagePixels*3 = 7749` bytes
of the pixel buffer from offset 70, page 2 the remaining
`numSecondPagePixels*3 = 7803` bytes from offset 16, and the two payloads
concatenated are the whole 15552-byte pixel buffer. -/
theorem SetKeyImage_two_pages {σ ε : Type} (d : Device σ ε) (w : World σ) (key : Int)
    (img : Image)
    (hX : img.Bounds.Max.X = img.Bounds.Min.X + 72)
    (hY : img.Bounds.Max.Y = img.Bounds.Min.Y + 72)
    (hok : ∀ s page, (d.Write s page).2.2 = none) :
    ∃ pixels p1 p2 : List Nat,
      SetKeyImage_pixels img = some pixels ∧
      pixels.length = iconSize * iconSize * 3 ∧
      (SetKeyImage d w key img).1.writes = w.writes ++ [p1, p2] ∧
      (SetKeyImage d w key img).2 = Outcome.ret none ∧
      p1.length = 8191 ∧ p2.length = 8191 ∧
      p1.take 70 = headerPage1.set 5 (toByte (key + 1)) ∧
      p2.take 16 = headerPage2.set 5 (toByte (key + 1)) ∧
      (p1.drop 70).take 7749 = pixels.take 7749 ∧
      (p2.drop 16).take 7803 = pixels.drop 7749 ∧
      (p1.drop 70).take 7749 ++ (p2.drop 16).take 7803 = pixels ∧
      numFirstPagePixels * 3 = 7749 ∧ numSecondPagePixels * 3 = 7803 ∧
      7749 + 7803 = iconSize * iconSize * 3 ∧
      numFirstPagePixels + numSecondPagePixels = iconSize * iconSize := by
  obtain ⟨pixels, hp, hlen, -⟩ := SetKeyImage_pixels_done img hX hY
  obtain ⟨hw, hr⟩ := SetKeyImage_of_pixels d w key img pixels hp hok
  have hn : numFirstPagePixels * 3 = 7749 := rfl
  rw [hn] at hw
  have h1 : ((buildPage headerPage1 key (pixels.take 7749)).drop 70).take 7749 =
      pixels.take 7749 := by
    have ht : (pixels.take 7749).take 8121 = pixels.take 7749 :=
      List.take_of_length_le (by rw [List.length_take]; omega)
    rw [buildPage1_drop, ht, List.take_left' (by rw [List.length_take]; omega)]
  have h2 : ((buildPage headerPage2 key (pixels.drop 7749)).drop 16).take 7803 =
      pixels.drop 7749 := by
    have ht : (pixels.drop 7749).take 8175 = pixels.drop 7749 :=
      List.take_of_length_le (by rw [List.length_drop]; omega)
    rw [buildPage2_drop, ht, List.take_left' (by rw [List.length_drop]; omega)]
  refine ⟨pixels, _, _, hp, hlen, hw, hr, buildPage_length _ _ _, buildPage_length _ _ _,
    buildPage1_take _ _, buildPage2_take _ _, h1, h2, ?_, rfl, rfl, rfl, rfl⟩
  rw [h1, h2, List.take_append_drop]

/-- Instance of C4: key 4 and the red 72x72 image at the origin. -/
theorem SetKeyImage_two_pages_witness :
    ((uniformImage 0 0 red16).Bounds.Max.X = (uniformImage 0 0 red16).Bounds.Min.X + 72 ∧
      (uniformImage 0 0 red16).Bounds.Max.Y = (uniformImage 0 0 red16).Bounds.Min.Y + 72 ∧
      ∀ s page, ((okDevice []).Write s page).2.2 = none) ∧
    ∃ pixels p1 p2 : List Nat,
      SetKeyImage_pixels (uniformImage 0 0 red16) = some pixels ∧
      pixels.length = iconSize * iconSize * 3 ∧
      (SetKeyImage (okDevice []) world0 4 (uniformImage 0 0 red16)).1.writes =
        world0.writes ++ [p1, p2] ∧
      (SetKeyImage (okDevice []) world0 4 (uniformImage 0 0 red16)).2 = Outcome.ret none ∧
      p1.length = 8191 ∧ p2.length = 8191 ∧
      p1.take 70 = headerPage1.set 5 (toByte (4 + 1)) ∧
      p2.take 16 = headerPage2.set 5 (toByte (4 + 1)) ∧
      (p1.drop 70).take 7749 = pixels.take 7749 ∧
      (p2.drop 16).take 7803 = pixels.drop 7749 ∧
      (p1.drop 70).take 7749 ++ (p2.drop 16).take 7803 = pixels ∧
      numFirstPagePixels * 3 = 7749 ∧ numSecondPagePixels * 3 = 7803 ∧
      7749 + 7803 = iconSize * iconSize * 3 ∧
      numFirstPagePixels + numSecondPagePixels = iconSize * iconSize :=
  ⟨⟨by decide, by decide, fun _ _ => rfl⟩,
    SetKeyImage_two_pages (okDevice []) world0 4 (uniformImage 0 0 red16)
      (by decide) (by decide) (fun _ _ => rfl)⟩

end Streamdeck

namespace Streamdeck

/-! ## Claims on `Buttons` -/

theorem deviceRead_length {σ ε : Type} (d : Device σ ε) (w : World σ) (buf : List Nat) :
    (deviceRead d w buf).2.1.length = buf.length := copy_length _ _

/-- The loop of `Buttons` run for `n ≤ 15` rounds on a report of at least 16
bytes: no store is out of range and entry `i < n` is `buf[i+1] == 1`. -/
theorem Buttons_decode_loop (buf : List Nat) (hb : 16 ≤ buf.length) (bs0 : List Bool)
    (h0 : bs0.length = 15) (n : Nat) (hn : n ≤ 15) :
    ∃ q : List Bool,
      (List.range n).foldlM (fun (buttons : List Bool) (i : Nat) =>
        (buf[i + 1]?).bind fun v => store buttons (i : Int) (v == 1)) bs0 = some q ∧
      q.length = 15 ∧
      ∀ i, i < n → ∃ v, buf[i + 1]? = some v ∧ q[i]? = some (v == 1) := by
  induction n with
  | zero => exact ⟨bs0, rfl, h0, fun i hi => absurd hi (Nat.not_lt_zero i)⟩
  | succ n ih =>
    obtain ⟨q, hq, hlen, hall⟩ := ih (by omega)
    cases hv : buf[n + 1]? with
    | none =>
      rw [List.getElem?_eq_none_iff] at hv
      omega
    | some v =>
      refine ⟨q.set n (v == 1), ?_, by rw [List.length_set]; exact hlen, ?_⟩
      · rw [List.range_succ, List.foldlM_append, hq]
        simp only [List.foldlM_cons, List.foldlM_nil, Option.some_bind, Option.bind_eq_bind, hv]
        rw [store_natCast _ _ _ (by omega)]
        rfl
      · intro i hi
        by_cases he : i = n
        · subst he
          exact ⟨v, hv, by rw [List.getElem?_set_self (by omega)]⟩
        · obtain ⟨u, hu, hqi⟩ := hall i (by omega)
          exact ⟨u, hu, by rw [List.getElem?_set_ne (fun e => he e.symm)]; exact hqi⟩

theorem Buttons_decode_eq (buf : List Nat) (hb : 16 ≤ buf.length) :
    Buttons_decode buf (List.replicate numButtons false) =
      some (((buf.drop 1).take 15).map (fun v => v == 1)) := by
  obtain ⟨q, hq, hlen, hall⟩ := Buttons_decode_loop buf hb (List.replicate numButtons false)
    (by rw [List.length_replicate]; rfl) 15 (le_refl 15)
  have hq2 : Buttons_decode buf (List.replicate numButtons false) = some q := hq
  rw [hq2]
  congr 1
  apply List.ext_getElem?
  intro i
  by_cases hi : i < 15
  · obtain ⟨v, hv, hqi⟩ := hall i hi
    rw [hqi, List.getElem?_map, List.getElem?_take, if_pos hi, List.getElem?_drop,
      Nat.add_comm 1 i, hv]
    rfl
  · rw [List.getElem?_eq_none_iff.mpr (by omega), List.getElem?_eq_none_iff.mpr]
    rw [List.length_map, List.length_take]
    omega

/-- C5: when the read succeeds and leaves the bytes `buf` in the 17-byte report
buffer, `Buttons` returns a vector of length 15 and no error; entry `i` is
`true` exactly when `buf[i+1]` is 1, for every `i` in `[0,15)`.  The vector is
a function of the bytes 1..15 alone: it is `buf[1..16)` mapped by `== 1`. -/
theorem Buttons_decodes {σ ε : Type} (d : Device σ ε) (w w2 : World σ) (buf : List Nat)
    (n : Nat) (hread : deviceRead d w (List.replicate eventSize 0) = (w2, buf, n, none)) :
    buf.length = 17 ∧
    ∃ bs : List Bool,
      Buttons d w = (w2, Outcome.ret (some bs, none)) ∧
      bs.length = 15 ∧
      (∀ i, i < 15 → (bs[i]? = some true ↔ buf[i + 1]? = some 1)) ∧
      (∀ i, i < 15 → (bs[i]? = some false ↔ buf[i + 1]? ≠ some 1)) ∧
      bs = ((buf.drop 1).take 15).map (fun v => v == 1) := by
  have hlen : buf.length = 17 := by
    have h := deviceRead_length d w (List.replicate eventSize 0)
    rw [hread, List.length_replicate] at h
    exact h
  have hdec := Buttons_decode_eq buf (by omega)
  have hget : ∀ i, i < 15 →
      (((buf.drop 1).take 15).map (fun v => v == 1))[i]? = (buf[i + 1]?).map (fun v => v == 1) := by
    intro i hi
    rw [List.getElem?_map, List.getElem?_take, if_pos hi, List.getElem?_drop, Nat.add_comm 1 i]
  refine ⟨hlen, _, ?_, ?_, ?_, ?_, rfl⟩
  · simp only [Buttons, hread, hdec]
  · rw [List.length_map, List.length_take, List.length_drop]
    omega
  · intro i hi
    rw [hget i hi]
    cases hv : buf[i + 1]? with
    | none =>
      rw [List.getElem?_eq_none_iff] at hv
      omega
    | some v => simp
  · intro i hi
    rw [hget i hi]
    cases hv : buf[i + 1]? with
    | none =>
      rw [List.getElem?_eq_none_iff] at hv
      omega
    | some v => simp

/-- Instance of C5: the report `sampleReport`, in which the bytes 1, 4 and 15
are 1 (buttons 0, 3 and 14) and the bytes 0 and 16 are 1 as well. -/
theorem Buttons_decodes_witness :
    deviceRead (okDevice sampleReport) world0 (List.replicate eventSize 0) =
        ({ dev := (), writes := [], reads := 1 }, sampleReport, 17, none) ∧
    (sampleReport.length = 17 ∧
    ∃ bs : List Bool,
      Buttons (okDevice sampleReport) world0 =
        ({ dev := (), writes := [], reads := 1 }, Outcome.ret (some bs, none)) ∧
      bs.length = 15 ∧
      (∀ i, i < 15 → (bs[i]? = some true ↔ sampleReport[i + 1]? = some 1)) ∧
      (∀ i, i < 15 → (bs[i]? = some false ↔ sampleReport[i + 1]? ≠ some 1)) ∧
      bs = ((sampleReport.drop 1).take 15).map (fun v => v == 1)) :=
  ⟨rfl, Buttons_decodes (okDevice sampleReport) world0 _ sampleReport 17 rfl⟩

end Streamdeck

namespace Streamdeck

/-! ## Claims on `SetKeyColor` and `ClearKey` -/

theorem bytesRepeat_succ (l : List Nat) (n : Nat) :
    bytesRepeat l (n + 1) = l ++ bytesRepeat l n := by
  simp only [bytesRepeat, List.replicate_succ, List.flatten_cons]

theorem bytesRepeat_length (x y z : Nat) (n : Nat) :
    (bytesRepeat [x, y, z] n).length = 3 * n := by
  induction n with
  | zero => rfl
  | succ n ih =>
    rw [bytesRepeat_succ, List.length_append, ih]
    simp only [List.length_cons, List.length_nil]
    omega

theorem bytesRepeat_getElem? (x y z : Nat) (n j : Nat) (hj : j < 3 * n) :
    (bytesRepeat [x, y, z] n)[j]? = [x, y, z][j % 3]? := by
  induction n generalizing j with
  | zero => omega
  | succ n ih =>
    rw [bytesRepeat_succ]
    by_cases h3 : j < 3
    · rw [List.getElem?_append_left (by simpa using h3), Nat.mod_eq_of_lt h3]
    · have hm : (j - 3) % 3 = j % 3 := by omega
      rw [List.getElem?_append_right (by simp only [List.length_cons, List.length_nil]; omega)]
      simp only [List.length_cons, List.length_nil]
      rw [ih (j - 3) (by omega), hm]

/-- What `SetKeyColor` does on a transport whose writes succeed: two writes,
page 1 then page 2, and a `nil` error. -/
theorem SetKeyColor_ok {σ ε : Type} (d : Device σ ε) (w : World σ) (key : Int)
    (r g b : Nat) (hok : ∀ s page, (d.Write s page).2.2 = none) :
    (SetKeyColor d w key r g b).1.writes =
        w.writes ++ [buildPage headerPage1 key (SetKeyColor_page1Bytes r g b),
          buildPage headerPage2 key (SetKeyColor_page2Bytes r g b)] ∧
      (SetKeyColor d w key r g b).2 = none := by
  have h1 : (writePage1 d w key (SetKeyColor_page1Bytes r g b)).2 = none := hok _ _
  have h2 : (writePage2 d (writePage1 d w key (SetKeyColor_page1Bytes r g b)).1 key
      (SetKeyColor_page2Bytes r g b)).2 = none := hok _ _
  simp only [SetKeyColor, h1, h2]
  simp [writePage2_writes, writePage1_writes]

/-- What `ClearKey` does on a transport whose writes succeed. -/
theorem ClearKey_ok {σ ε : Type} (d : Device σ ε) (w : World σ) (key : Int)
    (hok : ∀ s page, (d.Write s page).2.2 = none) :
    (ClearKey d w key).1.writes =
        w.writes ++ [buildPage headerPage1 key ClearKey_page1Bytes,
          buildPage headerPage2 key ClearKey_page2Bytes] ∧
      (ClearKey d w key).2 = none := by
  have h1 : (writePage1 d w key ClearKey_page1Bytes).2 = none := hok _ _
  have h2 : (writePage2 d (writePage1 d w key ClearKey_page1Bytes).1 key
      ClearKey_page2Bytes).2 = none := hok _ _
  simp only [ClearKey, h1, h2]
  simp [writePage2_writes, writePage1_writes]

theorem SetKeyColor_page1Bytes_length (r g b : Nat) :
    (SetKeyColor_page1Bytes r g b).length = 23247 := by
  rw [SetKeyColor_page1Bytes, bytesRepeat_length]
  rfl

theorem SetKeyColor_page2Bytes_length (r g b : Nat) :
    (SetKeyColor_page2Bytes r g b).length = 23409 := by
  rw [SetKeyColor_page2Bytes, bytesRepeat_length]
  rfl

/-- Byte `70 + j` of the first page of `SetKeyColor`, for `j` in `[0, 8121)`. -/
theorem colorPage1_getElem? (key : Int) (r g b j : Nat) (hj : j < 8121) :
    (buildPage headerPage1 key (SetKeyColor_page1Bytes r g b))[70 + j]? = [b, g, r][j % 3]? := by
  rw [getElem?_of_drop _ _ 70 j (buildPage1_drop key _),
    List.getElem?_append_left (by rw [List.length_take, SetKeyColor_page1Bytes_length]; omega),
    List.getElem?_take, if_pos hj, SetKeyColor_page1Bytes,
    bytesRepeat_getElem? _ _ _ _ _ (by simp only [numFirstPagePixels]; omega)]

/-- Byte `16 + j` of the second page of `SetKeyColor`, for `j` in `[0, 8175)`. -/
theorem colorPage2_getElem? (key : Int) (r g b j : Nat) (hj : j < 8175) :
    (buildPage headerPage2 key (SetKeyColor_page2Bytes r g b))[16 + j]? = [b, g, r][j % 3]? := by
  rw [getElem?_of_drop _ _ 16 j (buildPage2_drop key _),
    List.getElem?_append_left (by rw [List.length_take, SetKeyColor_page2Bytes_length]; omega),
    List.getElem?_take, if_pos hj, SetKeyColor_page2Bytes,
    bytesRepeat_getElem? _ _ _ _ _ (by simp only [numSecondPagePixels]; omega)]

/-- C7: for every key `k` in `[0,15)` and every colour, on a transport whose
writes succeed `SetKeyColor` issues exactly two writes and returns no error;
the first page starts with the page-1 header and the second with the page-2
header, both with byte 5 equal to `k + 1`, and every byte after the header is
the repetition of `[b, g, r]`: `page1[70+j] = [b,g,r][j mod 3]` for `j < 8121`
and `page2[16+j] = [b,g,r][j mod 3]` for `j < 8175`, up to the end of the page,
both counts being multiples of 3. -/
theorem SetKeyColor_pages {σ ε : Type} (d : Device σ ε) (w : World σ) (k : Nat)
    (r g b : Nat) (hk : k < 15) (hok : ∀ s page, (d.Write s page).2.2 = none) :
    ∃ p1 p2 : List Nat,
      (SetKeyColor d w (k : Int) r g b).1.writes = w.writes ++ [p1, p2] ∧
      (SetKeyColor d w (k : Int) r g b).2 = none ∧
      p1.length = 8191 ∧ p2.length = 8191 ∧
      p1.take 70 = headerPage1.set 5 (k + 1) ∧
      p2.take 16 = headerPage2.set 5 (k + 1) ∧
      (∀ j, j < 8121 → p1[70 + j]? = [b, g, r][j % 3]?) ∧
      (∀ j, j < 8175 → p2[16 + j]? = [b, g, r][j % 3]?) ∧
      70 + 8121 = 8191 ∧ 16 + 8175 = 8191 ∧ 8121 % 3 = 0 ∧ 8175 % 3 = 0 := by
  have hb : toByte ((k : Int) + 1) = k + 1 := toByte_key k (by omega)
  obtain ⟨hw, hr⟩ := SetKeyColor_ok d w (k : Int) r g b hok
  refine ⟨_, _, hw, hr, buildPage_length _ _ _, buildPage_length _ _ _, ?_, ?_,
    fun j hj => colorPage1_getElem? _ r g b j hj,
    fun j hj => colorPage2_getElem? _ r g b j hj, rfl, rfl, rfl, rfl⟩
  · rw [buildPage1_take, hb]
  · rw [buildPage2_take, hb]

/-- Instance of C7: `SetKeyColor(0, 255, 0, 0)`, pure red, gives `00 00 ff`
repeated after each header. -/
theorem SetKeyColor_pages_witness :
    (0 < 15 ∧ ∀ s page, ((okDevice []).Write s page).2.2 = none) ∧
    ∃ p1 p2 : List Nat,
      (SetKeyColor (okDevice []) world0 ((0 : Nat) : Int) 255 0 0).1.writes =
        world0.writes ++ [p1, p2] ∧
      (SetKeyColor (okDevice []) world0 ((0 : Nat) : Int) 255 0 0).2 = none ∧
      p1.length = 8191 ∧ p2.length = 8191 ∧
      p1.take 70 = headerPage1.set 5 (0 + 1) ∧
      p2.take 16 = headerPage2.set 5 (0 + 1) ∧
      (∀ j, j < 8121 → p1[70 + j]? = [0, 0, 255][j % 3]?) ∧
      (∀ j, j < 8175 → p2[16 + j]? = [0, 0, 255][j % 3]?) ∧
      70 + 8121 = 8191 ∧ 16 + 8175 = 8191 ∧ 8121 % 3 = 0 ∧ 8175 % 3 = 0 :=
  ⟨⟨by decide, fun _ _ => rfl⟩,
    SetKeyColor_pages (okDevice []) world0 0 255 0 0 (by decide) (fun _ _ => rfl)⟩

/-- C8, as stated, fails: for pure red the buffer that `SetKeyColor` passes to
`writePage1` has 23247 bytes, not `3*numFirstPagePixels = 7749`, the one passed
to `writePage2` has 23409, not `3*numSecondPagePixels = 7803`, and on the page
the colour does not stop after 7749 bytes: byte `70 + 7751` is `ff`. -/
theorem SetKeyColor_payload_counterexample :
    ¬ ((SetKeyColor_page1Bytes 255 0 0).length = 3 * numFirstPagePixels) ∧
    ¬ ((SetKeyColor_page2Bytes 255 0 0).length = 3 * numSecondPagePixels) ∧
    (buildPage headerPage1 0 (SetKeyColor_page1Bytes 255 0 0))[70 + 7751]? = some 255 := by
  refine ⟨?_, ?_, ?_⟩
  · rw [SetKeyColor_page1Bytes_length]
    decide
  · rw [SetKeyColor_page2Bytes_length]
    decide
  · rw [colorPage1_getElem? 0 255 0 0 7751 (by decide)]
    rfl

/-- C8, amended: for every colour the buffer that `SetKeyColor` passes to
`writePage1` is `3*numFirstPagePixels = 7749` repeats of `[b, g, r]`, that is
`3*3*numFirstPagePixels = 23247` bytes, and the one it passes to `writePage2` is
`3*numSecondPagePixels = 7803` repeats, that is `3*3*numSecondPagePixels = 23409`
bytes; byte `j` of either is `[b,g,r][j mod 3]`. -/
theorem SetKeyColor_payload (r g b : Nat) :
    SetKeyColor_page1Bytes r g b = bytesRepeat [b, g, r] 7749 ∧
    SetKeyColor_page2Bytes r g b = bytesRepeat [b, g, r] 7803 ∧
    (SetKeyColor_page1Bytes r g b).length = 3 * 3 * numFirstPagePixels ∧
    (SetKeyColor_page2Bytes r g b).length = 3 * 3 * numSecondPagePixels ∧
    3 * 3 * numFirstPagePixels = 23247 ∧ 3 * 3 * numSecondPagePixels = 23409 ∧
    (∀ j, j < 23247 → (SetKeyColor_page1Bytes r g b)[j]? = [b, g, r][j % 3]?) ∧
    (∀ j, j < 23409 → (SetKeyColor_page2Bytes r g b)[j]? = [b, g, r][j % 3]?) := by
  refine ⟨rfl, rfl, SetKeyColor_page1Bytes_length r g b, SetKeyColor_page2Bytes_length r g b,
    rfl, rfl, ?_, ?_⟩
  · intro j hj
    rw [SetKeyColor_page1Bytes,
      bytesRepeat_getElem? _ _ _ _ _ (by simp only [numFirstPagePixels]; omega)]
  · intro j hj
    rw [SetKeyColor_page2Bytes,
      bytesRepeat_getElem? _ _ _ _ _ (by simp only [numSecondPagePixels]; omega)]

end Streamdeck

namespace Streamdeck

/-! ## A uniform image against `SetKeyColor`; `ClearKey` -/

/-- The pixel buffer of a 72x72 image whose pixels all have the 8-bit colour
`(r, g, b)`: 5184 repeats of `[b, g, r]`. -/
theorem SetKeyImage_pixels_uniform (img : Image) (r g b : Nat)
    (hX : img.Bounds.Max.X = img.Bounds.Min.X + 72)
    (hY : img.Bounds.Max.Y = img.Bounds.Min.Y + 72)
    (hcol : ∀ dx dy : Nat, dx < 72 → dy < 72 →
      channelByte (img.At (img.Bounds.Min.X + dx) (img.Bounds.Min.Y + dy)).r = r ∧
      channelByte (img.At (img.Bounds.Min.X + dx) (img.Bounds.Min.Y + dy)).g = g ∧
      channelByte (img.At (img.Bounds.Min.X + dx) (img.Bounds.Min.Y + dy)).b = b) :
    SetKeyImage_pixels img = some (bytesRepeat [b, g, r] (iconSize * iconSize)) := by
  obtain ⟨pixels, hp, hlen, hdone⟩ := SetKeyImage_pixels_done img hX hY
  have hn : iconSize * iconSize = 5184 := rfl
  rw [hp, hn]
  congr 1
  apply List.ext_getElem?
  intro j
  by_cases hj : j < 15552
  · rw [bytesRepeat_getElem? _ _ _ _ _ (by omega)]
    obtain ⟨hb, hg, hr⟩ := hdone (71 - j / 3 % 72) (j / 216) (by omega) (by omega) trivial
    obtain ⟨cr, cg, cb⟩ := hcol (71 - j / 3 % 72) (j / 216) (by omega) (by omega)
    rw [cb] at hb
    rw [cg] at hg
    rw [cr] at hr
    have e : 3 * (j / 216 * 72 + (71 - (71 - j / 3 % 72))) = j - j % 3 := by omega
    rw [e] at hb hg hr
    have h3 : j % 3 = 0 ∨ j % 3 = 1 ∨ j % 3 = 2 := by omega
    rcases h3 with h3 | h3 | h3
    · rw [h3] at hb ⊢
      exact hb
    · rw [h3] at hg ⊢
      rw [show j - 1 + 1 = j by omega] at hg
      exact hg
    · rw [h3] at hr ⊢
      rw [show j - 2 + 2 = j by omega] at hr
      exact hr
  · rw [List.getElem?_eq_none_iff.mpr (by omega), List.getElem?_eq_none_iff.mpr]
    rw [bytesRepeat_length]
    omega

/-- Byte `j` of the first page of `SetKeyImage`, for `j` in `[7819, 8191)`. -/
theorem imagePage1_tail (key : Int) (pixels : List Nat) (hlen : pixels.length = 15552)
    (j : Nat) (h1 : 7819 ≤ j) (h2 : j < 8191) :
    (buildPage headerPage1 key (pixels.take (numFirstPagePixels * 3)))[j]? = some 0 := by
  have hn : numFirstPagePixels * 3 = 7749 := rfl
  have hl : (pixels.take 7749).length = 7749 := by rw [List.length_take]; omega
  obtain ⟨i, rfl⟩ : ∃ i, j = 70 + i := ⟨j - 70, by omega⟩
  rw [hn, getElem?_of_drop _ _ 70 i (buildPage1_drop key _),
    List.getElem?_append_right (by rw [List.length_take, hl]; omega),
    List.getElem?_replicate_of_lt (by rw [List.length_take, hl]; omega)]

/-- Byte `j` of the second page of `SetKeyImage`, for `j` in `[7819, 8191)`. -/
theorem imagePage2_tail (key : Int) (pixels : List Nat) (hlen : pixels.length = 15552)
    (j : Nat) (h1 : 7819 ≤ j) (h2 : j < 8191) :
    (buildPage headerPage2 key (pixels.drop (numFirstPagePixels * 3)))[j]? = some 0 := by
  have hn : numFirstPagePixels * 3 = 7749 := rfl
  have hl : (pixels.drop 7749).length = 7803 := by rw [List.length_drop]; omega
  obtain ⟨i, rfl⟩ : ∃ i, j = 16 + i := ⟨j - 16, by omega⟩
  rw [hn, getElem?_of_drop _ _ 16 i (buildPage2_drop key _),
    List.getElem?_append_right (by rw [List.length_take, hl]; omega),
    List.getElem?_replicate_of_lt (by rw [List.length_take, hl]; omega)]

/-- The first 7819 bytes of the first page: the same for the pixel buffer of a
uniform image as for the buffer of `SetKeyColor`. -/
theorem uniformPage1_take (key : Int) (r g b : Nat) :
    (buildPage headerPage1 key
        ((bytesRepeat [b, g, r] (iconSize * iconSize)).take (numFirstPagePixels * 3))).take 7819 =
      (buildPage headerPage1 key (SetKeyColor_page1Bytes r g b)).take 7819 := by
  have hn : numFirstPagePixels * 3 = 7749 := rfl
  have hi : iconSize * iconSize = 5184 := rfl
  rw [hn, hi]
  apply List.ext_getElem?
  intro j
  rw [List.getElem?_take, List.getElem?_take]
  by_cases hj : j < 7819
  · rw [if_pos hj, if_pos hj]
    by_cases h70 : j < 70
    · rw [buildPage1_eq, buildPage1_eq,
        List.getElem?_append_left (by rw [List.length_set, headerPage1_length]; exact h70),
        List.getElem?_append_left (by rw [List.length_set, headerPage1_length]; exact h70)]
    · obtain ⟨i, rfl⟩ : ∃ i, j = 70 + i := ⟨j - 70, by omega⟩
      have hl : ((bytesRepeat [b, g, r] 5184).take 7749).length = 7749 := by
        rw [List.length_take, bytesRepeat_length]; omega
      rw [colorPage1_getElem? key r g b i (by omega),
        getElem?_of_drop _ _ 70 i (buildPage1_drop key _),
        List.getElem?_append_left (by rw [List.length_take, hl]; omega),
        List.getElem?_take, if_pos (by omega), List.getElem?_take, if_pos (by omega),
        bytesRepeat_getElem? _ _ _ _ _ (by omega)]
  · rw [if_neg hj, if_neg hj]

/-- The first 7819 bytes of the second page: the same for the pixel buffer of a
uniform image as for the buffer of `SetKeyColor`. -/
theorem uniformPage2_take (key : Int) (r g b : Nat) :
    (buildPage headerPage2 key
        ((bytesRepeat [b, g, r] (iconSize * iconSize)).drop (numFirstPagePixels * 3))).take 7819 =
      (buildPage headerPage2 key (SetKeyColor_page2Bytes r g b)).take 7819 := by
  have hn : numFirstPagePixels * 3 = 7749 := rfl
  have hi : iconSize * iconSize = 5184 := rfl
  rw [hn, hi]
  apply List.ext_getElem?
  intro j
  rw [List.getElem?_take, List.getElem?_take]
  by_cases hj : j < 7819
  · rw [if_pos hj, if_pos hj]
    by_cases h16 : j < 16
    · rw [buildPage2_eq, buildPage2_eq,
        List.getElem?_append_left (by rw [List.length_set, headerPage2_length]; exact h16),
        List.getElem?_append_left (by rw [List.length_set, headerPage2_length]; exact h16)]
    · obtain ⟨i, rfl⟩ : ∃ i, j = 16 + i := ⟨j - 16, by omega⟩
      have hl : ((bytesRepeat [b, g, r] 5184).drop 7749).length = 7803 := by
        rw [List.length_drop, bytesRepeat_length]
      have hm : (7749 + i) % 3 = i % 3 := by omega
      rw [colorPage2_getElem? key r g b i (by omega),
        getElem?_of_drop _ _ 16 i (buildPage2_drop key _),
        List.getElem?_append_left (by rw [List.length_take, hl]; omega),
        List.getElem?_take, if_pos (by omega), List.getElem?_drop,
        bytesRepeat_getElem? _ _ _ _ _ (by omega), hm]
  · rw [if_neg hj, if_neg hj]

end Streamdeck

namespace Streamdeck

/-- C9, as stated, fails: the red 72x72 image has the colour `(255, 0, 0)` in
every pixel, yet for key 0 the pages that `SetKeyImage` writes are not the pages
that `SetKeyColor(0, 255, 0, 0)` writes. -/
theorem SetKeyImage_SetKeyColor_counterexample :
    (channelByte red16.r = 255 ∧ channelByte red16.g = 0 ∧ channelByte red16.b = 0) ∧
    (SetKeyImage (okDevice []) world0 0 (uniformImage 0 0 red16)).1.writes ≠
      (SetKeyColor (okDevice []) world0 0 255 0 0).1.writes := by
  refine ⟨by decide, ?_⟩
  obtain ⟨pixels, hp, hlen, -⟩ := SetKeyImage_pixels_done (uniformImage 0 0 red16)
    (by decide) (by decide)
  obtain ⟨hi, -⟩ := SetKeyImage_of_pixels (okDevice []) world0 0 (uniformImage 0 0 red16)
    pixels hp (fun _ _ => rfl)
  obtain ⟨hc, -⟩ := SetKeyColor_ok (okDevice []) world0 0 255 0 0 (fun _ _ => rfl)
  rw [hi, hc]
  intro h
  have h1 := (List.cons.inj (List.append_cancel_left h)).1
  have h0 := imagePage1_tail 0 pixels hlen 7821 (by decide) (by decide)
  have h255 := colorPage1_getElem? 0 255 0 0 7751 (by decide)
  rw [h1, h255] at h0
  exact absurd h0 (by decide)

/-- C9, amended: for every colour `(r, g, b)` and every 72x72 image all of whose
pixels have that colour, the pixel buffer of `SetKeyImage` is `iconSize*iconSize`
repeats of `[b, g, r]`; on a transport whose writes succeed and for the same
key, `SetKeyImage` and `SetKeyColor` each write two pages of 8191 bytes, and the
pages agree on their first 7819 bytes, which are the header, the key byte and
the 7749 (page 1) or 7803 (page 2) pixel bytes.  In the last 372 bytes the pages
of `SetKeyImage` are zero and those of `SetKeyColor` go on repeating
`[b, g, r]`. -/
theorem SetKeyImage_uniform_pages {σ ε : Type} (d : Device σ ε) (w : World σ) (key : Int)
    (img : Image) (r g b : Nat)
    (hX : img.Bounds.Max.X = img.Bounds.Min.X + 72)
    (hY : img.Bounds.Max.Y = img.Bounds.Min.Y + 72)
    (hcol : ∀ dx dy : Nat, dx < 72 → dy < 72 →
      channelByte (img.At (img.Bounds.Min.X + dx) (img.Bounds.Min.Y + dy)).r = r ∧
      channelByte (img.At (img.Bounds.Min.X + dx) (img.Bounds.Min.Y + dy)).g = g ∧
      channelByte (img.At (img.Bounds.Min.X + dx) (img.Bounds.Min.Y + dy)).b = b)
    (hok : ∀ s page, (d.Write s page).2.2 = none) :
    SetKeyImage_pixels img = some (bytesRepeat [b, g, r] (iconSize * iconSize)) ∧
    ∃ i1 i2 c1 c2 : List Nat,
      (SetKeyImage d w key img).1.writes = w.writes ++ [i1, i2] ∧
      (SetKeyColor d w key r g b).1.writes = w.writes ++ [c1, c2] ∧
      i1.length = 8191 ∧ i2.length = 8191 ∧ c1.length = 8191 ∧ c2.length = 8191 ∧
      i1.take 7819 = c1.take 7819 ∧
      i2.take 7819 = c2.take 7819 ∧
      70 + 7749 = 7819 ∧ 16 + 7803 = 7819 ∧
      (∀ j, 7819 ≤ j → j < 8191 → i1[j]? = some 0 ∧ i2[j]? = some 0) ∧
      (∀ j, 7819 ≤ j → j < 8191 →
        c1[j]? = [b, g, r][(j - 70) % 3]? ∧ c2[j]? = [b, g, r][(j - 16) % 3]?) := by
  have hp := SetKeyImage_pixels_uniform img r g b hX hY hcol
  have hlen : (bytesRepeat [b, g, r] (iconSize * iconSize)).length = 15552 := by
    rw [bytesRepeat_length]
    rfl
  obtain ⟨hi, -⟩ := SetKeyImage_of_pixels d w key img _ hp hok
  obtain ⟨hc, -⟩ := SetKeyColor_ok d w key r g b hok
  refine ⟨hp, _, _, _, _, hi, hc, buildPage_length _ _ _, buildPage_length _ _ _,
    buildPage_length _ _ _, buildPage_length _ _ _, uniformPage1_take key r g b,
    uniformPage2_take key r g b, rfl, rfl, ?_, ?_⟩
  · intro j h1 h2
    exact ⟨imagePage1_tail key _ hlen j h1 h2, imagePage2_tail key _ hlen j h1 h2⟩
  · intro j h1 h2
    constructor
    · have e : j = 70 + (j - 70) := by omega
      rw [e, colorPage1_getElem? key r g b (j - 70) (by omega), ← e]
    · have e : j = 16 + (j - 16) := by omega
      rw [e, colorPage2_getElem? key r g b (j - 16) (by omega), ← e]

/-- Instance of C9 as amended: key 0, the red image and the colour `(255, 0, 0)`. -/
theorem SetKeyImage_uniform_pages_witness :
    ((uniformImage 0 0 red16).Bounds.Max.X = (uniformImage 0 0 red16).Bounds.Min.X + 72 ∧
      (uniformImage 0 0 red16).Bounds.Max.Y = (uniformImage 0 0 red16).Bounds.Min.Y + 72 ∧
      (∀ dx dy : Nat, dx < 72 → dy < 72 →
        channelByte ((uniformImage 0 0 red16).At ((uniformImage 0 0 red16).Bounds.Min.X + dx)
          ((uniformImage 0 0 red16).Bounds.Min.Y + dy)).r = 255 ∧
        channelByte ((uniformImage 0 0 red16).At ((uniformImage 0 0 red16).Bounds.Min.X + dx)
          ((uniformImage 0 0 red16).Bounds.Min.Y + dy)).g = 0 ∧
        channelByte ((uniformImage 0 0 red16).At ((uniformImage 0 0 red16).Bounds.Min.X + dx)
          ((uniformImage 0 0 red16).Bounds.Min.Y + dy)).b = 0) ∧
      ∀ s page, ((okDevice []).Write s page).2.2 = none) ∧
    (SetKeyImage_pixels (uniformImage 0 0 red16) =
        some (bytesRepeat [0, 0, 255] (iconSize * iconSize)) ∧
    ∃ i1 i2 c1 c2 : List Nat,
      (SetKeyImage (okDevice []) world0 0 (uniformImage 0 0 red16)).1.writes =
        world0.writes ++ [i1, i2] ∧
      (SetKeyColor (okDevice []) world0 0 255 0 0).1.writes = world0.writes ++ [c1, c2] ∧
      i1.length = 8191 ∧ i2.length = 8191 ∧ c1.length = 8191 ∧ c2.length = 8191 ∧
      i1.take 7819 = c1.take 7819 ∧
      i2.take 7819 = c2.take 7819 ∧
      70 + 7749 = 7819 ∧ 16 + 7803 = 7819 ∧
      (∀ j, 7819 ≤ j → j < 8191 → i1[j]? = some 0 ∧ i2[j]? = some 0) ∧
      (∀ j, 7819 ≤ j → j < 8191 →
        c1[j]? = [0, 0, 255][(j - 70) % 3]? ∧ c2[j]? = [0, 0, 255][(j - 16) % 3]?)) :=
  ⟨⟨by decide, by decide,
      fun _ _ _ _ => ⟨(by decide : channelByte 0xffff = 255), (by decide : channelByte 0 = 0),
        (by decide : channelByte 0 = 0)⟩,
      fun _ _ => rfl⟩,
    SetKeyImage_uniform_pages (okDevice []) world0 0 (uniformImage 0 0 red16) 255 0 0
      (by decide) (by decide)
      (fun _ _ _ _ => ⟨(by decide : channelByte 0xffff = 255), (by decide : channelByte 0 = 0),
        (by decide : channelByte 0 = 0)⟩)
      (fun _ _ => rfl)⟩

/-- C10: for every key `k` in `[0,15)`, on a transport whose writes succeed
`ClearKey` issues exactly two writes, page 1 then page 2, and returns no error;
each page has 8191 bytes, starts with its header with byte 5 equal to `k + 1`,
and is zero at every offset after the header (from 70 on page 1, from 16 on
page 2); the zero buffers handed to the page writers have
`3*3*numFirstPagePixels = 23247` and `3*3*numSecondPagePixels = 23409` bytes. -/
theorem ClearKey_pages {σ ε : Type} (d : Device σ ε) (w : World σ) (k : Nat)
    (hk : k < 15) (hok : ∀ s page, (d.Write s page).2.2 = none) :
    ∃ p1 p2 : List Nat,
      (ClearKey d w (k : Int)).1.writes = w.writes ++ [p1, p2] ∧
      (ClearKey d w (k : Int)).2 = none ∧
      p1.length = 8191 ∧ p2.length = 8191 ∧
      p1.take 70 = headerPage1.set 5 (k + 1) ∧
      p2.take 16 = headerPage2.set 5 (k + 1) ∧
      p1[5]? = some (k + 1) ∧ p2[5]? = some (k + 1) ∧
      (∀ i, 70 ≤ i → i < 8191 → p1[i]? = some 0) ∧
      (∀ i, 16 ≤ i → i < 8191 → p2[i]? = some 0) ∧
      ClearKey_page1Bytes.length = 3 * 3 * numFirstPagePixels ∧
      ClearKey_page2Bytes.length = 3 * 3 * numSecondPagePixels ∧
      3 * 3 * numFirstPagePixels = 23247 ∧ 3 * 3 * numSecondPagePixels = 23409 ∧
      (∀ v, v ∈ ClearKey_page1Bytes → v = 0) ∧ (∀ v, v ∈ ClearKey_page2Bytes → v = 0) := by
  have hb : toByte ((k : Int) + 1) = k + 1 := toByte_key k (by omega)
  have hn1 : 3 * 3 * numFirstPagePixels = 23247 := rfl
  have hn2 : 3 * 3 * numSecondPagePixels = 23409 := rfl
  have hl1 : ClearKey_page1Bytes.length = 23247 := by
    rw [ClearKey_page1Bytes, List.length_replicate, hn1]
  have hl2 : ClearKey_page2Bytes.length = 23409 := by
    rw [ClearKey_page2Bytes, List.length_replicate, hn2]
  obtain ⟨hw, hr⟩ := ClearKey_ok d w (k : Int) hok
  refine ⟨_, _, hw, hr, buildPage_length _ _ _, buildPage_length _ _ _, ?_, ?_, ?_, ?_, ?_, ?_,
    by rw [hl1, hn1], by rw [hl2, hn2], hn1, hn2,
    fun v hv => List.eq_of_mem_replicate hv, fun v hv => List.eq_of_mem_replicate hv⟩
  · rw [buildPage1_take, hb]
  · rw [buildPage2_take, hb]
  · rw [buildPage1_key, hb]
  · rw [buildPage2_key, hb]
  · intro i h1 h2
    obtain ⟨j, rfl⟩ : ∃ j, i = 70 + j := ⟨i - 70, by omega⟩
    rw [getElem?_of_drop _ _ 70 j (buildPage1_drop _ _),
      List.getElem?_append_left (by rw [List.length_take, hl1]; omega),
      List.getElem?_take, if_pos (by omega), ClearKey_page1Bytes,
      List.getElem?_replicate_of_lt (by rw [hn1]; omega)]
  · intro i h1 h2
    obtain ⟨j, rfl⟩ : ∃ j, i = 16 + j := ⟨i - 16, by omega⟩
    rw [getElem?_of_drop _ _ 16 j (buildPage2_drop _ _),
      List.getElem?_append_left (by rw [List.length_take, hl2]; omega),
      List.getElem?_take, if_pos (by omega), ClearKey_page2Bytes,
      List.getElem?_replicate_of_lt (by rw [hn2]; omega)]

/-- Instance of C10: `ClearKey(7)` writes byte 5 = 8 on both pages. -/
theorem ClearKey_pages_witness :
    (7 < 15 ∧ ∀ s page, ((okDevice []).Write s page).2.2 = none) ∧
    ∃ p1 p2 : List Nat,
      (ClearKey (okDevice []) world0 ((7 : Nat) : Int)).1.writes = world0.writes ++ [p1, p2] ∧
      (ClearKey (okDevice []) world0 ((7 : Nat) : Int)).2 = none ∧
      p1.length = 8191 ∧ p2.length = 8191 ∧
      p1.take 70 = headerPage1.set 5 (7 + 1) ∧
      p2.take 16 = headerPage2.set 5 (7 + 1) ∧
      p1[5]? = some (7 + 1) ∧ p2[5]? = some (7 + 1) ∧
      (∀ i, 70 ≤ i → i < 8191 → p1[i]? = some 0) ∧
      (∀ i, 16 ≤ i → i < 8191 → p2[i]? = some 0) ∧
      ClearKey_page1Bytes.length = 3 * 3 * numFirstPagePixels ∧
      ClearKey_page2Bytes.length = 3 * 3 * numSecondPagePixels ∧
      3 * 3 * numFirstPagePixels = 23247 ∧ 3 * 3 * numSecondPagePixels = 23409 ∧
      (∀ v, v ∈ ClearKey_page1Bytes → v = 0) ∧ (∀ v, v ∈ ClearKey_page2Bytes → v = 0) :=
  ⟨⟨by decide, fun _ _ => rfl⟩,
    ClearKey_pages (okDevice []) world0 7 (by decide) (fun _ _ => rfl)⟩

end Streamdeck

namespace Streamdeck

/-! ## The partition of the panel -/

theorem SetPanelImage_rect_eq (column row : Nat) :
    SetPanelImage_rect column row =
      { Min := { X := (4 - (column : Int)) * 72, Y := (row : Int) * 72 },
        Max := { X := (4 - (column : Int)) * 72 + 72, Y := (row : Int) * 72 + 72 } } := by
  have hc : ((numColumns : Nat) : Int) = 5 := rfl
  have hi : ((iconSize : Nat) : Int) = 72 := rfl
  simp only [SetPanelImage_rect, Rect, hc, hi]
  rw [if_neg (by omega), if_neg (by omega), if_neg (by omega), if_neg (by omega)]
  congr 3

theorem mem_SetPanelImage_cells (c : Nat × Nat) :
    c ∈ SetPanelImage_cells ↔ c.1 < 5 ∧ c.2 < 3 := by
  obtain ⟨a, b⟩ := c
  simp only [SetPanelImage_cells, List.mem_flatMap, List.mem_map, List.mem_range, numColumns,
    numRows, Prod.mk.injEq]
  constructor
  · rintro ⟨x, hx, y, hy, rfl, rfl⟩
    exact ⟨hx, hy⟩
  · rintro ⟨ha, hb⟩
    exact ⟨a, ha, b, hb, rfl, rfl⟩

theorem inRect_SetPanelImage_rect (column row : Nat) (x y : Int) :
    inRect (SetPanelImage_rect column row) x y ↔
      (4 - (column : Int)) * 72 ≤ x ∧ x < (4 - (column : Int)) * 72 + 72 ∧
        (row : Int) * 72 ≤ y ∧ y < (row : Int) * 72 + 72 := by
  rw [SetPanelImage_rect_eq]
  rfl

theorem SetPanelImage_keys :
    SetPanelImage_cells.map (fun c => SetPanelImage_key c.1 c.2) =
      [0, 5, 10, 1, 6, 11, 2, 7, 12, 3, 8, 13, 4, 9, 14] := by
  decide

/-- C11: the 15 crops of `SetPanelImage`, `[startX, startX+72) x [startY,
startY+72)` with `startX = (4-column)*72` and `startY = row*72`, tile a 360x216
image: each crop lies inside the image and every pixel of the image lies in
exactly one crop.  The keys `column + row*5` of the crops are pairwise distinct
and are exactly the values 0..14, and the crop `[288,360) x [0,72)` at the
top-right corner is the one of key 0. -/
theorem SetPanelImage_partition :
    SetPanelImage_cells.length = 15 ∧
    (∀ c : Nat × Nat, c ∈ SetPanelImage_cells →
      SetPanelImage_rect c.1 c.2 =
        { Min := { X := (4 - (c.1 : Int)) * 72, Y := (c.2 : Int) * 72 },
          Max := { X := (4 - (c.1 : Int)) * 72 + 72, Y := (c.2 : Int) * 72 + 72 } }) ∧
    (∀ c : Nat × Nat, c ∈ SetPanelImage_cells → ∀ x y : Int,
      inRect (SetPanelImage_rect c.1 c.2) x y → 0 ≤ x ∧ x < 360 ∧ 0 ≤ y ∧ y < 216) ∧
    (∀ x y : Int, 0 ≤ x → x < 360 → 0 ≤ y → y < 216 →
      ∃! c : Nat × Nat, c ∈ SetPanelImage_cells ∧ inRect (SetPanelImage_rect c.1 c.2) x y) ∧
    (SetPanelImage_cells.map (fun c => SetPanelImage_key c.1 c.2)).Nodup ∧
    (∀ k : Int, k ∈ SetPanelImage_cells.map (fun c => SetPanelImage_key c.1 c.2) ↔
      0 ≤ k ∧ k < 15) ∧
    (∀ c : Nat × Nat, c ∈ SetPanelImage_cells →
      (SetPanelImage_rect c.1 c.2 =
          { Min := { X := 288, Y := 0 }, Max := { X := 360, Y := 72 } } ↔
        SetPanelImage_key c.1 c.2 = 0)) ∧
    SetPanelImage_rect 0 0 = { Min := { X := 288, Y := 0 }, Max := { X := 360, Y := 72 } } ∧
    SetPanelImage_key 0 0 = 0 := by
  refine ⟨by decide, fun c _ => SetPanelImage_rect_eq c.1 c.2, ?_, ?_, ?_, ?_, ?_,
    by decide, by decide⟩
  · intro c hc x y hin
    rw [mem_SetPanelImage_cells] at hc
    rw [inRect_SetPanelImage_rect] at hin
    omega
  · intro x y hx0 hx1 hy0 hy1
    refine ⟨((4 - x / 72).toNat, (y / 72).toNat), ⟨?_, ?_⟩, ?_⟩
    · rw [mem_SetPanelImage_cells]
      constructor <;> simp only <;> omega
    · rw [inRect_SetPanelImage_rect]
      simp only
      omega
    · rintro ⟨a, b⟩ ⟨hmem, hin⟩
      rw [mem_SetPanelImage_cells] at hmem
      rw [inRect_SetPanelImage_rect] at hin
      simp only at hmem hin
      rw [Prod.mk.injEq]
      constructor <;> omega
  · rw [SetPanelImage_keys]
    decide
  · intro k
    rw [SetPanelImage_keys]
    simp only [List.mem_cons, List.mem_singleton, List.not_mem_nil, or_false]
    omega
  · intro c hc
    rw [mem_SetPanelImage_cells] at hc
    rw [SetPanelImage_rect_eq]
    have hn : ((numColumns : Nat) : Int) = 5 := rfl
    simp only [SetPanelImage_key, hn, Rectangle.mk.injEq, Point.mk.injEq]
    omega

end Streamdeck

namespace Streamdeck

/-! ## Sequences of writes -/

theorem errAt_zero {σ ε : Type} (d : Device σ ε) (s : σ) (page : List Nat)
    (rest : List (List Nat)) : errAt d s (page :: rest) 0 = (d.Write s page).2.2 := rfl

theorem errAt_succ {σ ε : Type} (d : Device σ ε) (s : σ) (page : List Nat)
    (rest : List (List Nat)) (k : Nat) :
    errAt d s (page :: rest) (k + 1) = errAt d (d.Write s page).1 rest k := rfl

theorem devAfter_cons {σ ε : Type} (d : Device σ ε) (s : σ) (page : List Nat)
    (rest : List (List Nat)) :
    devAfter d s (page :: rest) = devAfter d (d.Write s page).1 rest := rfl

/-- When no write fails, `writeSeq` writes every page and returns no error. -/
theorem writeSeq_all_ok {σ ε : Type} (d : Device σ ε) (pages : List (List Nat)) (w : World σ)
    (hok : ∀ k, k < pages.length → errAt d w.dev pages k = none) :
    writeSeq d pages w =
      ({ dev := devAfter d w.dev pages, writes := w.writes ++ pages, reads := w.reads },
        none) := by
  induction pages generalizing w with
  | nil => simp [writeSeq, devAfter]
  | cons page rest ih =>
    have h0 : (d.Write w.dev page).2.2 = none := hok 0 (by simp)
    have hrest : ∀ k, k < rest.length →
        errAt d (deviceWrite d w page).1.dev rest k = none := by
      intro k hk
      have := hok (k + 1) (by simp; omega)
      rwa [errAt_succ] at this
    have hd : (deviceWrite d w page).2.2 = none := h0
    simp only [writeSeq, hd]
    rw [ih _ hrest]
    simp [deviceWrite, devAfter_cons]

/-- When the write number `n` (from 0) is the first to fail, with `e`,
`writeSeq` writes the first `n + 1` pages and returns `e`. -/
theorem writeSeq_first_err {σ ε : Type} (d : Device σ ε) (pages : List (List Nat))
    (w : World σ) (n : Nat) (e : ε) (hn : n < pages.length)
    (hok : ∀ k, k < n → errAt d w.dev pages k = none)
    (herr : errAt d w.dev pages n = some e) :
    writeSeq d pages w =
      ({ dev := devAfter d w.dev (pages.take (n + 1)),
         writes := w.writes ++ pages.take (n + 1), reads := w.reads }, some e) := by
  induction pages generalizing w n with
  | nil => simp at hn
  | cons page rest ih =>
    cases n with
    | zero =>
      have hd : (deviceWrite d w page).2.2 = some e := herr
      simp only [writeSeq, hd]
      simp [deviceWrite, devAfter]
    | succ n =>
      have h0 : (d.Write w.dev page).2.2 = none := hok 0 (by omega)
      have hd : (deviceWrite d w page).2.2 = none := h0
      have hrest : ∀ k, k < n → errAt d (deviceWrite d w page).1.dev rest k = none := by
        intro k hk
        have := hok (k + 1) (by omega)
        rwa [errAt_succ] at this
      have herr2 : errAt d (deviceWrite d w page).1.dev rest n = some e := by
        rwa [errAt_succ] at herr
      simp only [writeSeq, hd]
      rw [ih _ n (by simpa using hn) hrest herr2]
      simp [deviceWrite, devAfter_cons]

theorem writeSeq_append_err {σ ε : Type} (d : Device σ ε) (a b : List (List Nat))
    (w : World σ) (e : ε) (h : (writeSeq d a w).2 = some e) :
    writeSeq d (a ++ b) w = writeSeq d a w := by
  induction a generalizing w with
  | nil => simp [writeSeq] at h
  | cons page rest ih =>
    cases hd : (deviceWrite d w page).2.2 with
    | some err => simp only [List.cons_append, writeSeq, hd]
    | none =>
      simp only [writeSeq, hd] at h
      simp only [List.cons_append, writeSeq, hd]
      exact ih _ h

theorem writeSeq_append_ok {σ ε : Type} (d : Device σ ε) (a b : List (List Nat))
    (w : World σ) (h : (writeSeq d a w).2 = none) :
    writeSeq d (a ++ b) w = writeSeq d b (writeSeq d a w).1 := by
  induction a generalizing w with
  | nil => simp [writeSeq]
  | cons page rest ih =>
    cases hd : (deviceWrite d w page).2.2 with
    | some err => simp [writeSeq, hd] at h
    | none =>
      simp only [writeSeq, hd] at h
      simp only [List.cons_append, writeSeq, hd]
      exact ih _ h

/-- `ClearKey` is the sequence of its two writes. -/
theorem ClearKey_eq_writeSeq {σ ε : Type} (d : Device σ ε) (w : World σ) (key : Int) :
    ClearKey d w key = writeSeq d (ClearKey_pageList key) w := by
  simp only [ClearKey, ClearKey_pageList, writeSeq, writePage1, writePage2]
  cases h1 : (deviceWrite d w (buildPage headerPage1 key ClearKey_page1Bytes)).2.2 with
  | some err => rfl
  | none =>
    simp only []
    cases h2 : (deviceWrite d
        (deviceWrite d w (buildPage headerPage1 key ClearKey_page1Bytes)).1
        (buildPage headerPage2 key ClearKey_page2Bytes)).2.2 with
    | some err => rfl
    | none => rfl

/-- `SetKeyColor` is the sequence of its two writes. -/
theorem SetKeyColor_eq_writeSeq {σ ε : Type} (d : Device σ ε) (w : World σ) (key : Int)
    (r g b : Nat) :
    SetKeyColor d w key r g b = writeSeq d (SetKeyColor_pageList key r g b) w := by
  simp only [SetKeyColor, SetKeyColor_pageList, writeSeq, writePage1, writePage2]
  cases h1 : (deviceWrite d w (buildPage headerPage1 key (SetKeyColor_page1Bytes r g b))).2.2 with
  | some err => rfl
  | none =>
    simp only []
    cases h2 : (deviceWrite d
        (deviceWrite d w (buildPage headerPage1 key (SetKeyColor_page1Bytes r g b))).1
        (buildPage headerPage2 key (SetKeyColor_page2Bytes r g b))).2.2 with
    | some err => rfl
    | none => rfl

/-- `SetKeyImage`, once its pixel buffer is built, is the sequence of its two
writes. -/
theorem SetKeyImage_eq_writeSeq {σ ε : Type} (d : Device σ ε) (w : World σ) (key : Int)
    (img : Image) (pixels : List Nat) (hp : SetKeyImage_pixels img = some pixels) :
    SetKeyImage d w key img =
      ((writeSeq d (SetKeyImage_pageList key pixels) w).1,
        Outcome.ret (writeSeq d (SetKeyImage_pageList key pixels) w).2) := by
  simp only [SetKeyImage, hp, SetKeyImage_pageList, writeSeq, writePage1, writePage2]
  cases h1 : (deviceWrite d w
      (buildPage headerPage1 key (pixels.take (numFirstPagePixels * 3)))).2.2 with
  | some err => rfl
  | none =>
    simp only []
    cases h2 : (deviceWrite d
        (deviceWrite d w (buildPage headerPage1 key (pixels.take (numFirstPagePixels * 3)))).1
        (buildPage headerPage2 key (pixels.drop (numFirstPagePixels * 3)))).2.2 with
    | some err => rfl
    | none => rfl

theorem ClearPanel_loop_eq {σ ε : Type} (d : Device σ ε) (keys : List Nat) (w : World σ) :
    ClearPanel_loop d keys w =
      writeSeq d (keys.flatMap fun i => ClearKey_pageList (i : Int)) w := by
  induction keys generalizing w with
  | nil => rfl
  | cons k rest ih =>
    rw [List.flatMap_cons]
    cases h : (ClearKey d w (k : Int)).2 with
    | some err =>
      have h2 : (writeSeq d (ClearKey_pageList (k : Int)) w).2 = some err := by
        rw [← ClearKey_eq_writeSeq]; exact h
      rw [writeSeq_append_err d _ _ w err h2, ← ClearKey_eq_writeSeq]
      simp only [ClearPanel_loop, h]
      exact Prod.ext rfl h.symm
    | none =>
      have h2 : (writeSeq d (ClearKey_pageList (k : Int)) w).2 = none := by
        rw [← ClearKey_eq_writeSeq]; exact h
      rw [writeSeq_append_ok d _ _ w h2, ← ClearKey_eq_writeSeq]
      simp only [ClearPanel_loop, h]
      exact ih _

/-- The three ways a sequence of two writes can end. -/
theorem writeSeq_pair {σ ε : Type} (d : Device σ ε) (w : World σ) (p1 p2 : List Nat) (e : ε) :
    (errAt d w.dev [p1, p2] 0 = some e →
      (writeSeq d [p1, p2] w).2 = some e ∧
        (writeSeq d [p1, p2] w).1.writes = w.writes ++ [p1]) ∧
    (errAt d w.dev [p1, p2] 0 = none → errAt d w.dev [p1, p2] 1 = some e →
      (writeSeq d [p1, p2] w).2 = some e ∧
        (writeSeq d [p1, p2] w).1.writes = w.writes ++ [p1, p2]) ∧
    (errAt d w.dev [p1, p2] 0 = none → errAt d w.dev [p1, p2] 1 = none →
      (writeSeq d [p1, p2] w).2 = none ∧
        (writeSeq d [p1, p2] w).1.writes = w.writes ++ [p1, p2]) := by
  refine ⟨?_, ?_, ?_⟩
  · intro h0
    rw [writeSeq_first_err d [p1, p2] w 0 e (by simp) (fun k hk => absurd hk (Nat.not_lt_zero k))
      h0]
    exact ⟨rfl, rfl⟩
  · intro h0 h1
    rw [writeSeq_first_err d [p1, p2] w 1 e (by simp)
      (fun k hk => by have : k = 0 := by omega
                      subst this; exact h0) h1]
    exact ⟨rfl, rfl⟩
  · intro h0 h1
    rw [writeSeq_all_ok d [p1, p2] w (fun k hk => by
      have hk2 : k < 2 := by simpa using hk
      have : k = 0 ∨ k = 1 := by omega
      rcases this with rfl | rfl
      · exact h0
      · exact h1)]
    exact ⟨rfl, rfl⟩

theorem ClearPanel_eq_writeSeq {σ ε : Type} (d : Device σ ε) (w : World σ) :
    ClearPanel d w = writeSeq d ClearPanel_pageList w :=
  ClearPanel_loop_eq d (List.range numButtons) w

end Streamdeck

namespace Streamdeck

/-! ## Claims on short reads, short writes and failures of the transport -/

/-- What `Buttons` returns after a read that returns no error, whatever count
the read reports. -/
theorem Buttons_of_read_ok {σ ε : Type} (d : Device σ ε) (w w2 : World σ) (buf : List Nat)
    (n : Nat) (hread : deviceRead d w (List.replicate eventSize 0) = (w2, buf, n, none)) :
    Buttons d w =
      (w2, Outcome.ret (some (((buf.drop 1).take 15).map (fun v => v == 1)), none)) := by
  have hlen : buf.length = 17 := by
    have h := deviceRead_length d w (List.replicate eventSize 0)
    rw [hread, List.length_replicate] at h
    exact h
  have hdec := Buttons_decode_eq buf (by omega)
  simp only [Buttons, hread, hdec]

/-- C12, as stated, fails: the read of `shortDevice` reports 2 bytes, fewer
than `eventSize = 17`, with a `nil` error, and `Buttons` returns a vector of 15
booleans and no error. -/
theorem Buttons_short_read_counterexample :
    (deviceRead shortDevice world0 (List.replicate eventSize 0)).2.2.1 = 2 ∧
    (deviceRead shortDevice world0 (List.replicate eventSize 0)).2.2.2 = none ∧
    (Buttons shortDevice world0).2 =
      Outcome.ret (some [true, false, false, false, false, false, false, false, false, false,
        false, false, false, false, false], none) := by
  refine ⟨rfl, rfl, ?_⟩
  rw [Buttons_of_read_ok shortDevice world0 _ _ 2 rfl]
  rfl

/-- C12, amended: for every read outcome `(n, nil)` with `n < 17`, `Buttons`
returns no error: it returns the vector of 15 booleans decoded from the 17-byte
report buffer as the read left it, entry `i` being `buf[i+1] == 1`.  `Buttons`
returns an error only when the read itself returns one. -/
theorem Buttons_short_read {σ ε : Type} (d : Device σ ε) (w w2 : World σ) (buf : List Nat)
    (n : Nat) (hread : deviceRead d w (List.replicate eventSize 0) = (w2, buf, n, none))
    (_hn : n < 17) :
    buf.length = 17 ∧
    Buttons d w =
      (w2, Outcome.ret (some (((buf.drop 1).take 15).map (fun v => v == 1)), none)) ∧
    (((buf.drop 1).take 15).map (fun v => v == 1)).length = 15 ∧
    (∀ e : ε, (Buttons d w).2 ≠ Outcome.ret (none, some e)) := by
  have hlen : buf.length = 17 := by
    have h := deviceRead_length d w (List.replicate eventSize 0)
    rw [hread, List.length_replicate] at h
    exact h
  have hb := Buttons_of_read_ok d w w2 buf n hread
  refine ⟨hlen, hb, ?_, ?_⟩
  · rw [List.length_map, List.length_take, List.length_drop]
    omega
  · intro e he
    rw [hb] at he
    cases he

/-- Instance of C12 as amended: the read of `shortDevice` reports 2 bytes. -/
theorem Buttons_short_read_witness :
    (deviceRead shortDevice world0 (List.replicate eventSize 0) =
        ({ dev := (), writes := [], reads := 1 },
          [0, 1, 0, 0, 0, 0, 0, 0, 0, 0, 0, 0, 0, 0, 0, 0, 0], 2, none) ∧ 2 < 17) ∧
    ([0, 1, 0, 0, 0, 0, 0, 0, 0, 0, 0, 0, 0, 0, 0, 0, 0].length = 17 ∧
    Buttons shortDevice world0 =
      ({ dev := (), writes := [], reads := 1 },
        Outcome.ret (some ((([0, 1, 0, 0, 0, 0, 0, 0, 0, 0, 0, 0, 0, 0, 0, 0, 0].drop 1).take
          15).map (fun v => v == 1)), none)) ∧
    ((([0, 1, 0, 0, 0, 0, 0, 0, 0, 0, 0, 0, 0, 0, 0, 0, 0].drop 1).take 15).map
      (fun v => v == 1)).length = 15 ∧
    (∀ e : Unit, (Buttons shortDevice world0).2 ≠ Outcome.ret (none, some e))) :=
  ⟨⟨rfl, by decide⟩, Buttons_short_read shortDevice world0 _ _ 2 rfl (by decide)⟩

/-- C13, as stated, fails: every write of `shortDevice` reports 100 bytes,
fewer than `pageSize = 8191`, and `writePage1`, `writePage2`, `SetKeyImage`,
`SetKeyColor` and `ClearKey` all return no error. -/
theorem writePage_short_write_counterexample :
    (∀ s page, (shortDevice.Write s page).2.1 = 100) ∧ 100 < pageSize ∧
    (writePage1 shortDevice world0 0 [1, 2, 3]).2 = none ∧
    (writePage2 shortDevice world0 0 [1, 2, 3]).2 = none ∧
    (SetKeyImage shortDevice world0 0 (uniformImage 0 0 red16)).2 = Outcome.ret none ∧
    (SetKeyColor shortDevice world0 0 255 0 0).2 = none ∧
    (ClearKey shortDevice world0 0).2 = none := by
  obtain ⟨pixels, hp, -, -⟩ := SetKeyImage_pixels_done (uniformImage 0 0 red16)
    (by decide) (by decide)
  exact ⟨fun _ _ => rfl, by decide, rfl, rfl,
    (SetKeyImage_of_pixels shortDevice world0 0 _ pixels hp (fun _ _ => rfl)).2,
    (SetKeyColor_ok shortDevice world0 0 255 0 0 (fun _ _ => rfl)).2,
    (ClearKey_ok shortDevice world0 0 (fun _ _ => rfl)).2⟩

/-- C13, amended: `writePage1` and `writePage2` drop the count of the write and
return exactly its error value, so on a transport whose writes all report
fewer than `pageSize = 8191` bytes they fail exactly when the write returns an
error value; when every such short write returns a `nil` error, `writePage1`,
`writePage2`, `SetKeyImage` (of a 72x72 image), `SetKeyColor` and `ClearKey`
return no error. -/
theorem writePage_short_write {σ ε : Type} (d : Device σ ε) (w : World σ) (key : Int)
    (buf : List Nat) (img : Image) (r g b : Nat)
    (hX : img.Bounds.Max.X = img.Bounds.Min.X + 72)
    (hY : img.Bounds.Max.Y = img.Bounds.Min.Y + 72)
    (_hshort : ∀ s page, (d.Write s page).2.1 < pageSize) :
    (writePage1 d w key buf).2 = (d.Write w.dev (buildPage headerPage1 key buf)).2.2 ∧
    (writePage2 d w key buf).2 = (d.Write w.dev (buildPage headerPage2 key buf)).2.2 ∧
    ((∀ s page, (d.Write s page).2.2 = none) →
      (writePage1 d w key buf).2 = none ∧ (writePage2 d w key buf).2 = none ∧
      (SetKeyImage d w key img).2 = Outcome.ret none ∧
      (SetKeyColor d w key r g b).2 = none ∧ (ClearKey d w key).2 = none) := by
  refine ⟨rfl, rfl, ?_⟩
  intro hnil
  obtain ⟨pixels, hp, -, -⟩ := SetKeyImage_pixels_done img hX hY
  exact ⟨hnil _ _, hnil _ _, (SetKeyImage_of_pixels d w key img pixels hp hnil).2,
    (SetKeyColor_ok d w key r g b hnil).2, (ClearKey_ok d w key hnil).2⟩

/-- Instance of C13 as amended: `shortDevice`, whose writes report 100 bytes
and a `nil` error. -/
theorem writePage_short_write_witness :
    ((uniformImage 0 0 red16).Bounds.Max.X = (uniformImage 0 0 red16).Bounds.Min.X + 72 ∧
      (uniformImage 0 0 red16).Bounds.Max.Y = (uniformImage 0 0 red16).Bounds.Min.Y + 72 ∧
      (∀ s page, (shortDevice.Write s page).2.1 < pageSize) ∧
      (∀ s page, (shortDevice.Write s page).2.2 = none)) ∧
    ((writePage1 shortDevice world0 3 [1, 2]).2 = none ∧
      (writePage2 shortDevice world0 3 [1, 2]).2 = none ∧
      (SetKeyImage shortDevice world0 3 (uniformImage 0 0 red16)).2 = Outcome.ret none ∧
      (SetKeyColor shortDevice world0 3 255 0 0).2 = none ∧
      (ClearKey shortDevice world0 3).2 = none) :=
  ⟨⟨by decide, by decide, fun _ _ => (by decide : (100 : Nat) < pageSize), fun _ _ => rfl⟩,
    (writePage_short_write shortDevice world0 3 [1, 2] (uniformImage 0 0 red16) 255 0 0
      (by decide) (by decide) (fun _ _ => (by decide : (100 : Nat) < pageSize))).2.2 (fun _ _ => rfl)⟩

end Streamdeck

namespace Streamdeck

/-- What `Buttons` returns after a read that returns the error `e`. -/
theorem Buttons_of_read_err {σ ε : Type} (d : Device σ ε) (w : World σ) (e : ε)
    (h : (deviceRead d w (List.replicate eventSize 0)).2.2.2 = some e) :
    Buttons d w =
      ((deviceRead d w (List.replicate eventSize 0)).1, Outcome.ret (none, some e)) := by
  simp only [Buttons, h]

/-- Entries `2k` and `2k+1` of a list made of `n` pairs. -/
theorem flatMap_pair_getElem? (f g : Nat → List Nat) (n k : Nat) (hk : k < n) :
    ((List.range n).flatMap fun i => [f i, g i]).length = 2 * n ∧
    ((List.range n).flatMap fun i => [f i, g i])[2 * k]? = some (f k) ∧
    ((List.range n).flatMap fun i => [f i, g i])[2 * k + 1]? = some (g k) := by
  have hlen : ∀ m, ((List.range m).flatMap fun i => [f i, g i]).length = 2 * m := by
    intro m
    induction m with
    | zero => rfl
    | succ m ih =>
      rw [List.range_succ, List.flatMap_append, List.length_append, ih]
      simp
      omega
  refine ⟨hlen n, ?_⟩
  induction n with
  | zero => omega
  | succ n ih =>
    rw [List.range_succ, List.flatMap_append]
    by_cases h : k < n
    · obtain ⟨h1, h2⟩ := ih h
      rw [List.getElem?_append_left (by rw [hlen]; omega),
        List.getElem?_append_left (by rw [hlen]; omega)]
      exact ⟨h1, h2⟩
    · have hkn : k = n := by omega
      subst hkn
      rw [List.getElem?_append_right (by rw [hlen]),
        List.getElem?_append_right (by rw [hlen]; omega), hlen]
      simp

/-- C14: failures of the transport are returned unchanged and end the
operation.  (1) When the read fails with `e`, `Buttons` returns no vector and
`e`, after one read and no write.  (2) For `SetKeyImage` (its pixel buffer
built), `SetKeyColor` and `ClearKey`: when the page-1 write fails with `e` the
operation returns `e` and only that one write is issued; when the page-1 write
succeeds and the page-2 write fails with `e` it returns `e`; when both succeed
it returns no error. -/
theorem transport_failure_surfaces {σ ε : Type} (d : Device σ ε) (w : World σ) (key : Int)
    (img : Image) (pixels : List Nat) (r g b : Nat) (e : ε)
    (hp : SetKeyImage_pixels img = some pixels) :
    ((deviceRead d w (List.replicate eventSize 0)).2.2.2 = some e →
      (Buttons d w).2 = Outcome.ret (none, some e) ∧
      (Buttons d w).1.reads = w.reads + 1 ∧ (Buttons d w).1.writes = w.writes) ∧
    (errAt d w.dev (SetKeyImage_pageList key pixels) 0 = some e →
      (SetKeyImage d w key img).2 = Outcome.ret (some e) ∧
      (SetKeyImage d w key img).1.writes =
        w.writes ++ [buildPage headerPage1 key (pixels.take (numFirstPagePixels * 3))]) ∧
    (errAt d w.dev (SetKeyImage_pageList key pixels) 0 = none →
      errAt d w.dev (SetKeyImage_pageList key pixels) 1 = some e →
      (SetKeyImage d w key img).2 = Outcome.ret (some e) ∧
      (SetKeyImage d w key img).1.writes = w.writes ++ SetKeyImage_pageList key pixels) ∧
    (errAt d w.dev (SetKeyImage_pageList key pixels) 0 = none →
      errAt d w.dev (SetKeyImage_pageList key pixels) 1 = none →
      (SetKeyImage d w key img).2 = Outcome.ret none ∧
      (SetKeyImage d w key img).1.writes = w.writes ++ SetKeyImage_pageList key pixels) ∧
    (errAt d w.dev (SetKeyColor_pageList key r g b) 0 = some e →
      (SetKeyColor d w key r g b).2 = some e ∧
      (SetKeyColor d w key r g b).1.writes =
        w.writes ++ [buildPage headerPage1 key (SetKeyColor_page1Bytes r g b)]) ∧
    (errAt d w.dev (SetKeyColor_pageList key r g b) 0 = none →
      errAt d w.dev (SetKeyColor_pageList key r g b) 1 = some e →
      (SetKeyColor d w key r g b).2 = some e ∧
      (SetKeyColor d w key r g b).1.writes = w.writes ++ SetKeyColor_pageList key r g b) ∧
    (errAt d w.dev (SetKeyColor_pageList key r g b) 0 = none →
      errAt d w.dev (SetKeyColor_pageList key r g b) 1 = none →
      (SetKeyColor d w key r g b).2 = none ∧
      (SetKeyColor d w key r g b).1.writes = w.writes ++ SetKeyColor_pageList key r g b) ∧
    (errAt d w.dev (ClearKey_pageList key) 0 = some e →
      (ClearKey d w key).2 = some e ∧
      (ClearKey d w key).1.writes =
        w.writes ++ [buildPage headerPage1 key ClearKey_page1Bytes]) ∧
    (errAt d w.dev (ClearKey_pageList key) 0 = none →
      errAt d w.dev (ClearKey_pageList key) 1 = some e →
      (ClearKey d w key).2 = some e ∧
      (ClearKey d w key).1.writes = w.writes ++ ClearKey_pageList key) ∧
    (errAt d w.dev (ClearKey_pageList key) 0 = none →
      errAt d w.dev (ClearKey_pageList key) 1 = none →
      (ClearKey d w key).2 = none ∧
      (ClearKey d w key).1.writes = w.writes ++ ClearKey_pageList key) := by
  obtain ⟨i1, i2, i3⟩ := writeSeq_pair d w
    (buildPage headerPage1 key (pixels.take (numFirstPagePixels * 3)))
    (buildPage headerPage2 key (pixels.drop (numFirstPagePixels * 3))) e
  obtain ⟨c1, c2, c3⟩ := writeSeq_pair d w
    (buildPage headerPage1 key (SetKeyColor_page1Bytes r g b))
    (buildPage headerPage2 key (SetKeyColor_page2Bytes r g b)) e
  obtain ⟨k1, k2, k3⟩ := writeSeq_pair d w
    (buildPage headerPage1 key ClearKey_page1Bytes)
    (buildPage headerPage2 key ClearKey_page2Bytes) e
  rw [SetKeyImage_eq_writeSeq d w key img pixels hp, SetKeyColor_eq_writeSeq,
    ClearKey_eq_writeSeq]
  refine ⟨?_, ?_, ?_, ?_, c1, c2, c3, k1, k2, k3⟩
  · intro h
    rw [Buttons_of_read_err d w e h]
    exact ⟨rfl, rfl, rfl⟩
  · intro h0
    obtain ⟨hr, hw⟩ := i1 h0
    exact ⟨congrArg Outcome.ret hr, hw⟩
  · intro h0 h1
    obtain ⟨hr, hw⟩ := i2 h0 h1
    exact ⟨congrArg Outcome.ret hr, hw⟩
  · intro h0 h1
    obtain ⟨hr, hw⟩ := i3 h0 h1
    exact ⟨congrArg Outcome.ret hr, hw⟩

/-- Instance of C14: on `failingDevice 2 9` the read fails with 9, the first
write succeeds and the second fails with 9; `Buttons`, `SetKeyImage`,
`SetKeyColor` and `ClearKey` return 9, the last three after two writes. -/
theorem transport_failure_surfaces_witness :
    SetKeyImage_pixels (uniformImage 0 0 red16) =
      some (bytesRepeat [0, 0, 255] (iconSize * iconSize)) ∧
    (Buttons (failingDevice 2 9) worldN).2 = Outcome.ret (none, some 9) ∧
    (Buttons (failingDevice 2 9) worldN).1.reads = 1 ∧
    (SetKeyImage (failingDevice 2 9) worldN 0 (uniformImage 0 0 red16)).2 =
      Outcome.ret (some 9) ∧
    (SetKeyImage (failingDevice 2 9) worldN 0 (uniformImage 0 0 red16)).1.writes.length = 2 ∧
    (SetKeyColor (failingDevice 2 9) worldN 0 255 0 0).2 = some 9 ∧
    (ClearKey (failingDevice 2 9) worldN 0).2 = some 9 := by
  have hp : SetKeyImage_pixels (uniformImage 0 0 red16) =
      some (bytesRepeat [0, 0, 255] (iconSize * iconSize)) :=
    SetKeyImage_pixels_uniform (uniformImage 0 0 red16) 255 0 0 (by decide) (by decide)
      (fun _ _ _ _ => ⟨(by decide : channelByte 0xffff = 255), (by decide : channelByte 0 = 0),
        (by decide : channelByte 0 = 0)⟩)
  obtain ⟨hb, -, hi, -, -, hc, -, -, hk, -⟩ :=
    transport_failure_surfaces (failingDevice 2 9) worldN 0 (uniformImage 0 0 red16)
      (bytesRepeat [0, 0, 255] (iconSize * iconSize)) 255 0 0 9 hp
  obtain ⟨hb1, hb2, -⟩ := hb rfl
  obtain ⟨hi1, hi2⟩ := hi rfl rfl
  refine ⟨hp, hb1, hb2, hi1, ?_, (hc rfl rfl).1, (hk rfl rfl).1⟩
  rw [hi2]
  rfl

/-- C15: `ClearPanel` clears the keys 0..14 in ascending order: its pages are
the 30 pages `ClearPanel_pageList`, entries `2k` and `2k+1` (from 0) being page
1 and page 2 of key `k`, with byte 5 equal to `k + 1`.  When no write fails it
issues these 30 writes and returns no error; when write number `n` (from 0,
`n < 30`) is the first to fail, with `e`, it returns `e` after `n + 1` writes,
the failing one being the last. -/
theorem ClearPanel_trace {σ ε : Type} (d : Device σ ε) (w : World σ) :
    ClearPanel_pageList.length = 30 ∧
    (∀ k : Nat, k < 15 →
      ClearPanel_pageList[2 * k]? =
        some (buildPage headerPage1 (k : Int) ClearKey_page1Bytes) ∧
      ClearPanel_pageList[2 * k + 1]? =
        some (buildPage headerPage2 (k : Int) ClearKey_page2Bytes) ∧
      (buildPage headerPage1 (k : Int) ClearKey_page1Bytes)[5]? = some (k + 1) ∧
      (buildPage headerPage2 (k : Int) ClearKey_page2Bytes)[5]? = some (k + 1)) ∧
    ((∀ k, k < 30 → errAt d w.dev ClearPanel_pageList k = none) →
      (ClearPanel d w).2 = none ∧
      (ClearPanel d w).1.writes = w.writes ++ ClearPanel_pageList) ∧
    (∀ (n : Nat) (e : ε), n < 30 →
      (∀ k, k < n → errAt d w.dev ClearPanel_pageList k = none) →
      errAt d w.dev ClearPanel_pageList n = some e →
      (ClearPanel d w).2 = some e ∧
      (ClearPanel d w).1.writes = w.writes ++ ClearPanel_pageList.take (n + 1) ∧
      (ClearPanel d w).1.writes.length = w.writes.length + (n + 1)) := by
  have hlen : ClearPanel_pageList.length = 30 :=
    (flatMap_pair_getElem? (fun i => buildPage headerPage1 (i : Int) ClearKey_page1Bytes)
      (fun i => buildPage headerPage2 (i : Int) ClearKey_page2Bytes) 15 0 (by decide)).1
  refine ⟨hlen, ?_, ?_, ?_⟩
  · intro k hk
    obtain ⟨-, h1, h2⟩ := flatMap_pair_getElem?
      (fun i => buildPage headerPage1 (i : Int) ClearKey_page1Bytes)
      (fun i => buildPage headerPage2 (i : Int) ClearKey_page2Bytes) 15 k hk
    have hb : toByte ((k : Int) + 1) = k + 1 := toByte_key k (by omega)
    refine ⟨h1, h2, ?_, ?_⟩
    · rw [buildPage1_key, hb]
    · rw [buildPage2_key, hb]
  · intro hok
    rw [ClearPanel_eq_writeSeq, writeSeq_all_ok d _ w (by rw [hlen]; exact hok)]
    exact ⟨rfl, rfl⟩
  · intro n e hn hok herr
    rw [ClearPanel_eq_writeSeq,
      writeSeq_first_err d _ w n e (by rw [hlen]; exact hn) hok herr]
    refine ⟨rfl, rfl, ?_⟩
    simp only [List.length_append, List.length_take, hlen]
    omega

/-- Instance of C15: on `failingDevice 3 9` the third write, page 1 of key 1, is
the first to fail; `ClearPanel` returns 9 after three writes. -/
theorem ClearPanel_trace_witness :
    ((∀ k, k < 2 → errAt (failingDevice 3 9) worldN.dev ClearPanel_pageList k = none) ∧
      errAt (failingDevice 3 9) worldN.dev ClearPanel_pageList 2 = some 9) ∧
    ((ClearPanel (failingDevice 3 9) worldN).2 = some 9 ∧
      (ClearPanel (failingDevice 3 9) worldN).1.writes =
        worldN.writes ++ ClearPanel_pageList.take (2 + 1) ∧
      (ClearPanel (failingDevice 3 9) worldN).1.writes.length = worldN.writes.length + (2 + 1)) :=
  have h01 : ∀ k, k < 2 → errAt (failingDevice 3 9) worldN.dev ClearPanel_pageList k = none :=
    fun k hk => by
      have : k = 0 ∨ k = 1 := by omega
      rcases this with rfl | rfl <;> rfl
  ⟨⟨h01, rfl⟩, (ClearPanel_trace (failingDevice 3 9) worldN).2.2.2 2 9 (by decide) h01 rfl⟩

end Streamdeck

namespace Streamdeck

/-! ## `SetPanelImage` -/

/-- Entries `2j` and `2j+1` of the pages of a list of cells. -/
theorem flatMap_cells_getElem? (f g : Nat × Nat → List Nat) (l : List (Nat × Nat)) (j : Nat)
    (c : Nat × Nat) (hc : l[j]? = some c) :
    (l.flatMap fun c => [f c, g c])[2 * j]? = some (f c) ∧
    (l.flatMap fun c => [f c, g c])[2 * j + 1]? = some (g c) := by
  induction l generalizing j with
  | nil => simp at hc
  | cons x rest ih =>
    rw [List.flatMap_cons]
    cases j with
    | zero =>
      simp only [List.getElem?_cons_zero, Option.some.injEq] at hc
      subst hc
      exact ⟨by simp, by simp⟩
    | succ j =>
      rw [List.getElem?_cons_succ] at hc
      obtain ⟨h1, h2⟩ := ih j hc
      have hshift : ∀ m, ([f x, g x] ++ rest.flatMap fun c => [f c, g c])[m + 2]? =
          (rest.flatMap fun c => [f c, g c])[m]? := by
        intro m
        rw [List.getElem?_append_right (by simp)]
        simp
      have e1 : 2 * (j + 1) = 2 * j + 2 := by omega
      have e2 : 2 * (j + 1) + 1 = 2 * j + 1 + 2 := by omega
      rw [e2, e1, hshift, hshift]
      exact ⟨h1, h2⟩

theorem flatMap_cells_length (f g : Nat × Nat → List Nat) (l : List (Nat × Nat)) :
    (l.flatMap fun c => [f c, g c]).length = 2 * l.length := by
  induction l with
  | nil => rfl
  | cons x rest ih =>
    rw [List.flatMap_cons, List.length_append, ih]
    simp only [List.length_cons, List.length_nil]
    omega

/-- The loops of `SetPanelImage` over cells whose crops all encode: the
sequence of the writes of their pages. -/
theorem SetPanelImage_loop_eq {σ ε : Type} (d : Device σ ε) (subImg : Rectangle → Image)
    (px : Nat → Nat → List Nat) (cells : List (Nat × Nat))
    (hpx : ∀ c : Nat × Nat, c ∈ cells →
      SetKeyImage_pixels (subImg (SetPanelImage_rect c.1 c.2)) = some (px c.1 c.2))
    (w : World σ) :
    SetPanelImage_loop d subImg cells w =
      ((writeSeq d (cells.flatMap fun c =>
          SetKeyImage_pageList (SetPanelImage_key c.1 c.2) (px c.1 c.2)) w).1,
        Outcome.ret (writeSeq d (cells.flatMap fun c =>
          SetKeyImage_pageList (SetPanelImage_key c.1 c.2) (px c.1 c.2)) w).2) := by
  induction cells generalizing w with
  | nil => rfl
  | cons c rest ih =>
    have hc := hpx c (List.mem_cons_self c rest)
    have hrest : ∀ c' : Nat × Nat, c' ∈ rest →
        SetKeyImage_pixels (subImg (SetPanelImage_rect c'.1 c'.2)) = some (px c'.1 c'.2) :=
      fun c' h => hpx c' (List.mem_cons_of_mem c h)
    have hk := SetKeyImage_eq_writeSeq d w (SetPanelImage_key c.1 c.2)
      (subImg (SetPanelImage_rect c.1 c.2)) (px c.1 c.2) hc
    rw [List.flatMap_cons]
    cases h : (writeSeq d (SetKeyImage_pageList (SetPanelImage_key c.1 c.2) (px c.1 c.2)) w).2 with
    | some err =>
      rw [writeSeq_append_err d _ _ w err h]
      simp only [SetPanelImage_loop, hk, h]
    | none =>
      rw [writeSeq_append_ok d _ _ w h]
      simp only [SetPanelImage_loop, hk, h]
      exact ih hrest _

/-- C16: on a panel image whose `SubImage` returns crops with the bounds asked
for, as a 360x216 image does, `SetPanelImage` sets the keys in the order
0, 5, 10, 1, 6, 11, 2, 7, 12, 3, 8, 13, 4, 9, 14, column outer and row inner,
each key with the pixel buffer of its own crop: its pages are the 30 pages
`SetPanelImage_pageList px`, page 1 then page 2 per key.  When no write fails
it issues these 30 writes and returns no error; when write number `n` (from 0)
is the first to fail, with `e`, it returns `e` after `n + 1` writes and writes
nothing more. -/
theorem SetPanelImage_trace {σ ε : Type} (d : Device σ ε) (w : World σ) (img : PanelImage)
    (subImg : Rectangle → Image) (hsub : img.SubImage = some subImg)
    (hb : ∀ c : Nat × Nat, c ∈ SetPanelImage_cells →
      (subImg (SetPanelImage_rect c.1 c.2)).Bounds = SetPanelImage_rect c.1 c.2) :
    SetPanelImage_cells.map (fun c => SetPanelImage_key c.1 c.2) =
      [0, 5, 10, 1, 6, 11, 2, 7, 12, 3, 8, 13, 4, 9, 14] ∧
    ∃ px : Nat → Nat → List Nat,
      (∀ c : Nat × Nat, c ∈ SetPanelImage_cells →
        SetKeyImage_pixels (subImg (SetPanelImage_rect c.1 c.2)) = some (px c.1 c.2) ∧
        (px c.1 c.2).length = 15552) ∧
      (SetPanelImage_pageList px).length = 30 ∧
      (∀ (j : Nat) (c : Nat × Nat), SetPanelImage_cells[j]? = some c →
        (SetPanelImage_pageList px)[2 * j]? =
          some (buildPage headerPage1 (SetPanelImage_key c.1 c.2)
            ((px c.1 c.2).take (numFirstPagePixels * 3))) ∧
        (SetPanelImage_pageList px)[2 * j + 1]? =
          some (buildPage headerPage2 (SetPanelImage_key c.1 c.2)
            ((px c.1 c.2).drop (numFirstPagePixels * 3)))) ∧
      ((∀ k, k < 30 → errAt d w.dev (SetPanelImage_pageList px) k = none) →
        (SetPanelImage d w img).2 = Outcome.ret none ∧
        (SetPanelImage d w img).1.writes = w.writes ++ SetPanelImage_pageList px) ∧
      (∀ (n : Nat) (e : ε), n < 30 →
        (∀ k, k < n → errAt d w.dev (SetPanelImage_pageList px) k = none) →
        errAt d w.dev (SetPanelImage_pageList px) n = some e →
        (SetPanelImage d w img).2 = Outcome.ret (some e) ∧
        (SetPanelImage d w img).1.writes =
          w.writes ++ (SetPanelImage_pageList px).take (n + 1) ∧
        (SetPanelImage d w img).1.writes.length = w.writes.length + (n + 1)) := by
  refine ⟨SetPanelImage_keys, ?_⟩
  have hdone : ∀ c : Nat × Nat, c ∈ SetPanelImage_cells →
      ∃ p, SetKeyImage_pixels (subImg (SetPanelImage_rect c.1 c.2)) = some p ∧
        p.length = 15552 := by
    intro c hc
    have hbc := hb c hc
    obtain ⟨p, hp, hlen, -⟩ := SetKeyImage_pixels_done (subImg (SetPanelImage_rect c.1 c.2))
      (by rw [hbc, SetPanelImage_rect_eq]) (by rw [hbc, SetPanelImage_rect_eq])
    exact ⟨p, hp, hlen⟩
  refine ⟨fun a b => (SetKeyImage_pixels (subImg (SetPanelImage_rect a b))).getD [], ?_⟩
  have hpx : ∀ c : Nat × Nat, c ∈ SetPanelImage_cells →
      SetKeyImage_pixels (subImg (SetPanelImage_rect c.1 c.2)) =
        some ((SetKeyImage_pixels (subImg (SetPanelImage_rect c.1 c.2))).getD []) := by
    intro c hc
    obtain ⟨p, hp, -⟩ := hdone c hc
    rw [hp]
    rfl
  have hlen : (SetPanelImage_pageList fun a b =>
      (SetKeyImage_pixels (subImg (SetPanelImage_rect a b))).getD []).length = 30 := by
    unfold SetPanelImage_pageList SetKeyImage_pageList
    rw [flatMap_cells_length]
    rfl
  have heq := SetPanelImage_loop_eq d subImg
    (fun a b => (SetKeyImage_pixels (subImg (SetPanelImage_rect a b))).getD [])
    SetPanelImage_cells hpx w
  have hS : SetPanelImage d w img =
      SetPanelImage_loop d subImg SetPanelImage_cells w := by
    simp only [SetPanelImage, hsub]
  refine ⟨?_, hlen, ?_, ?_, ?_⟩
  · intro c hc
    obtain ⟨p, hp, hl⟩ := hdone c hc
    refine ⟨hpx c hc, ?_⟩
    simp only [hp]
    exact hl
  · intro j c hj
    exact flatMap_cells_getElem? _ _ SetPanelImage_cells j c hj
  · intro hok
    rw [hS, heq]
    have hseq := writeSeq_all_ok d (SetPanelImage_pageList fun a b =>
      (SetKeyImage_pixels (subImg (SetPanelImage_rect a b))).getD []) w
      (by rw [hlen]; exact hok)
    unfold SetPanelImage_pageList at hseq
    rw [hseq]
    exact ⟨rfl, rfl⟩
  · intro n e hn hok herr
    rw [hS, heq]
    have hseq := writeSeq_first_err d (SetPanelImage_pageList fun a b =>
      (SetKeyImage_pixels (subImg (SetPanelImage_rect a b))).getD []) w n e
      (by rw [hlen]; exact hn) hok herr
    have hlen2 := hlen
    unfold SetPanelImage_pageList at hseq hlen2
    rw [hseq]
    refine ⟨rfl, rfl, ?_⟩
    simp only [List.length_append, List.length_take, hlen2]
    omega

/-- Instance of C16: `samplePanel` on a transport whose writes succeed: 30
writes and no error. -/
theorem SetPanelImage_trace_witness :
    (samplePanel.SubImage = some sampleSubImage ∧
      ∀ c : Nat × Nat, c ∈ SetPanelImage_cells →
        (sampleSubImage (SetPanelImage_rect c.1 c.2)).Bounds = SetPanelImage_rect c.1 c.2) ∧
    ((SetPanelImage (okDevice []) world0 samplePanel).2 = Outcome.ret none ∧
      (SetPanelImage (okDevice []) world0 samplePanel).1.writes.length = 30) := by
  obtain ⟨-, px, -, hlen, -, hok, -⟩ :=
    SetPanelImage_trace (okDevice []) world0 samplePanel sampleSubImage rfl (fun _ _ => rfl)
  obtain ⟨hr, hw⟩ := hok (fun _ _ => rfl)
  refine ⟨⟨rfl, fun _ _ => rfl⟩, hr, ?_⟩
  rw [hw, List.length_append, hlen]
  rfl

end Streamdeck

namespace Streamdeck

/-! ## The indices of the stores of `SetKeyImage` -/

theorem mem_intRange (lo hi x : Int) : x ∈ intRange lo hi ↔ lo ≤ x ∧ x < hi := by
  simp only [intRange, List.mem_map, List.mem_range]
  constructor
  · rintro ⟨d, hd, rfl⟩
    omega
  · rintro ⟨h1, h2⟩
    exact ⟨(x - lo).toNat, by omega, by omega⟩

theorem intRange_nodup (lo hi : Int) : (intRange lo hi).Nodup := by
  unfold intRange
  refine List.Nodup.map ?_ (List.nodup_range _)
  intro a b h
  simp only at h
  omega

theorem intRange_length (lo hi : Int) : (intRange lo hi).length = (hi - lo).toNat := by
  simp only [intRange, List.length_map, List.length_range]

theorem length_flatMap_const {α β : Type} (l : List α) (f : α → List β) (k : Nat)
    (h : ∀ a, a ∈ l → (f a).length = k) : (l.flatMap f).length = l.length * k := by
  induction l with
  | nil => simp
  | cons x rest ih =>
    rw [List.flatMap_cons, List.length_append, h x (List.mem_cons_self x rest),
      ih (fun a ha => h a (List.mem_cons_of_mem x ha)), List.length_cons]
    rw [Nat.succ_mul]
    omega

/-- The stores of the inner loop are at `i - 1`, `i - 2`, `i - 3`. -/
theorem SetKeyImage_storePixel_index (img : Image) (min : Point) (pixels : List Nat)
    (x y : Int) :
    SetKeyImage_storePixel img min pixels x y =
      (store pixels (SetKeyImage_index min x y - 1) (channelByte (img.At x y).r)).bind
        fun pixels =>
          (store pixels (SetKeyImage_index min x y - 2) (channelByte (img.At x y).g)).bind
            fun pixels => store pixels (SetKeyImage_index min x y - 3)
              (channelByte (img.At x y).b) := rfl

theorem SetKeyImage_index_eq (min : Point) (x y : Int) :
    SetKeyImage_index min x y = ((y - min.Y) * 72 + (72 - (x - min.X))) * 3 := rfl

theorem mem_SetKeyImage_stores (img : Image) (i : Int) :
    i ∈ SetKeyImage_stores img ↔
      ∃ x y : Int, img.Bounds.Min.X ≤ x ∧ x < img.Bounds.Max.X ∧
        img.Bounds.Min.Y ≤ y ∧ y < img.Bounds.Max.Y ∧
        (i = SetKeyImage_index img.Bounds.Min x y - 1 ∨
          i = SetKeyImage_index img.Bounds.Min x y - 2 ∨
          i = SetKeyImage_index img.Bounds.Min x y - 3) := by
  simp only [SetKeyImage_stores, List.mem_flatMap, mem_intRange, List.mem_cons,
    List.mem_singleton, List.not_mem_nil, or_false]
  constructor
  · rintro ⟨x, ⟨hx1, hx2⟩, y, ⟨hy1, hy2⟩, h⟩
    exact ⟨x, y, hx1, hx2, hy1, hy2, h⟩
  · rintro ⟨x, y, hx1, hx2, hy1, hy2, h⟩
    exact ⟨x, ⟨hx1, hx2⟩, y, ⟨hy1, hy2⟩, h⟩

/-- On an image at most 72 pixels wide no index is computed twice. -/
theorem SetKeyImage_stores_nodup (img : Image)
    (hX : img.Bounds.Max.X ≤ img.Bounds.Min.X + 72) : (SetKeyImage_stores img).Nodup := by
  unfold SetKeyImage_stores
  rw [List.nodup_flatMap]
  constructor
  · intro x _
    rw [List.nodup_flatMap]
    constructor
    · intro y _
      simp only [List.nodup_cons, List.mem_cons, List.mem_singleton, List.not_mem_nil,
        not_false_eq_true, List.nodup_nil, and_true, not_or]
      omega
    · refine (intRange_nodup _ _).pairwise_of_forall_ne ?_
      intro a _ b _ hne
      simp only [Function.onFun, SetKeyImage_index_eq]
      intro i hi1 hi2
      simp only [List.mem_cons, List.mem_singleton, List.not_mem_nil, or_false] at hi1 hi2
      omega
  · refine (intRange_nodup _ _).pairwise_of_forall_ne ?_
    intro a ha b hb hne
    rw [mem_intRange] at ha hb
    simp only [Function.onFun, SetKeyImage_index_eq]
    intro i hi1 hi2
    simp only [List.mem_flatMap, mem_intRange, List.mem_cons, List.mem_singleton,
      List.not_mem_nil, or_false] at hi1 hi2
    obtain ⟨y1, -, h1⟩ := hi1
    obtain ⟨y2, -, h2⟩ := hi2
    omega

theorem SetKeyImage_stores_length (img : Image) :
    (SetKeyImage_stores img).length =
      (img.Bounds.Max.X - img.Bounds.Min.X).toNat *
        ((img.Bounds.Max.Y - img.Bounds.Min.Y).toNat * 3) := by
  unfold SetKeyImage_stores
  rw [length_flatMap_const _ _ ((img.Bounds.Max.Y - img.Bounds.Min.Y).toNat * 3),
    intRange_length]
  intro x _
  rw [length_flatMap_const _ _ 3, intRange_length]
  intro y _
  rfl

/-! ## The stores of `SetKeyImage` as a list -/

/-- A fold in `Option` over the concatenation of the lists `f a` is the fold of
the folds. -/
theorem foldlM_flatMap_option {α β γ : Type} (g : γ → β → Option γ) (f : α → List β)
    (l : List α) (b : γ) :
    (l.flatMap f).foldlM g b = l.foldlM (fun c a => (f a).foldlM g c) b := by
  induction l generalizing b with
  | nil => rfl
  | cons a rest ih =>
    rw [List.flatMap_cons, List.foldlM_append, List.foldlM_cons]
    cases h : (f a).foldlM g b with
    | none => rfl
    | some c => exact ih c

/-- The inner loop body of `SetKeyImage` makes the three stores of
`SetKeyImage_pixelStores`, from any buffer. -/
theorem SetKeyImage_storePixel_eq_applyStores (img : Image) (min : Point) (p : List Nat)
    (x y : Int) :
    SetKeyImage_storePixel img min p x y =
      applyStores p (SetKeyImage_pixelStores img min x y) := by
  rw [SetKeyImage_storePixel_index]
  simp only [applyStores, SetKeyImage_pixelStores, List.foldlM_cons, List.foldlM_nil]
  cases h1 : store p (SetKeyImage_index min x y - 1) (channelByte (img.At x y).r) with
  | none => rfl
  | some p1 =>
    cases h2 : store p1 (SetKeyImage_index min x y - 2) (channelByte (img.At x y).g) with
    | none => simp [h2]
    | some p2 =>
      cases h3 : store p2 (SetKeyImage_index min x y - 3) (channelByte (img.At x y).b) with
      | none => simp [h2, h3]
      | some p3 => simp [h2, h3]

/-- The buffer of `SetKeyImage` is the zero buffer after the stores of
`SetKeyImage_storeList`, made in order; a panic of one is a panic of the
other. -/
theorem SetKeyImage_pixels_eq_applyStores (img : Image) :
    SetKeyImage_pixels img =
      applyStores (List.replicate (iconSize * iconSize * 3) 0) (SetKeyImage_storeList img) := by
  unfold SetKeyImage_pixels applyStores SetKeyImage_storeList
  simp only []
  rw [foldlM_flatMap_option]
  congr 1
  funext c x
  rw [foldlM_flatMap_option]
  congr 1
  funext c2 y
  exact SetKeyImage_storePixel_eq_applyStores img img.Bounds.Min c2 x y

theorem map_fst_flatMap {α : Type} (l : List α) (f : α → List (Int × Nat)) :
    (l.flatMap f).map Prod.fst = l.flatMap fun a => (f a).map Prod.fst := by
  induction l with
  | nil => rfl
  | cons a rest ih => rw [List.flatMap_cons, List.map_append, ih, List.flatMap_cons]

/-- The indices of `SetKeyImage_storeList` are `SetKeyImage_stores`. -/
theorem SetKeyImage_storeList_indices (img : Image) :
    (SetKeyImage_storeList img).map Prod.fst = SetKeyImage_stores img := by
  unfold SetKeyImage_storeList SetKeyImage_stores
  rw [map_fst_flatMap]
  congr 1
  funext x
  rw [map_fst_flatMap]
  rfl

/-- On a 72x72 image the value of every store of `SetKeyImage_storeList` is in
the buffer that `SetKeyImage` builds, at the index of the store. -/
theorem SetKeyImage_pixels_store_values (img : Image)
    (hX : img.Bounds.Max.X = img.Bounds.Min.X + 72)
    (hY : img.Bounds.Max.Y = img.Bounds.Min.Y + 72) :
    ∃ pixels : List Nat, SetKeyImage_pixels img = some pixels ∧
      pixels.length = iconSize * iconSize * 3 ∧
      ∀ s : Int × Nat, s ∈ SetKeyImage_storeList img → pixels[s.1.toNat]? = some s.2 := by
  obtain ⟨pixels, hp, hlen, hdone⟩ := SetKeyImage_pixels_done img hX hY
  refine ⟨pixels, hp, hlen, ?_⟩
  intro s hs
  simp only [SetKeyImage_storeList, List.mem_flatMap, mem_intRange, SetKeyImage_pixelStores,
    List.mem_cons, List.mem_singleton, List.not_mem_nil, or_false] at hs
  obtain ⟨x, ⟨hx1, hx2⟩, y, ⟨hy1, hy2⟩, h⟩ := hs
  obtain ⟨dx, rfl⟩ : ∃ dx : Nat, x = img.Bounds.Min.X + (dx : Int) :=
    ⟨(x - img.Bounds.Min.X).toNat, by omega⟩
  obtain ⟨dy, rfl⟩ : ∃ dy : Nat, y = img.Bounds.Min.Y + (dy : Int) :=
    ⟨(y - img.Bounds.Min.Y).toNat, by omega⟩
  obtain ⟨hb, hg, hr⟩ := hdone dx dy (by omega) (by omega) trivial
  rcases h with h | h | h
  · rw [h]
    simp only [SetKeyImage_index_eq]
    rw [show (((img.Bounds.Min.Y + (dy : Int) - img.Bounds.Min.Y) * 72 +
        (72 - (img.Bounds.Min.X + (dx : Int) - img.Bounds.Min.X))) * 3 - 1).toNat =
        3 * (dy * 72 + (71 - dx)) + 2 by omega]
    exact hr
  · rw [h]
    simp only [SetKeyImage_index_eq]
    rw [show (((img.Bounds.Min.Y + (dy : Int) - img.Bounds.Min.Y) * 72 +
        (72 - (img.Bounds.Min.X + (dx : Int) - img.Bounds.Min.X))) * 3 - 2).toNat =
        3 * (dy * 72 + (71 - dx)) + 1 by omega]
    exact hg
  · rw [h]
    simp only [SetKeyImage_index_eq]
    rw [show (((img.Bounds.Min.Y + (dy : Int) - img.Bounds.Min.Y) * 72 +
        (72 - (img.Bounds.Min.X + (dx : Int) - img.Bounds.Min.X))) * 3 - 3).toNat =
        3 * (dy * 72 + (71 - dx)) by omega]
    exact hb

/-- C17: the stores of `SetKeyImage` are those of `SetKeyImage_storeList`: the
body of the inner loop makes its three stores from any buffer, and the buffer
`SetKeyImage` builds is the zero buffer after the stores of the list, in order.
For every 72x72 image, whatever its origin, every index of these stores
(`i-1`, `i-2`, `i-3` over the pixels of the bounds) lies in `[0, 15552)`, the
bounds of the buffer of `iconSize*iconSize*3` bytes, so that no store panics;
at `dx = 0` on the last row the index `i-1` is 15551, at `dx = 71` on the first
row the index `i-3` is 0, and each of the 15552 bytes is the target of exactly
one of the 15552 stores, whose value it holds in the buffer built. -/
theorem SetKeyImage_indices_in_bounds (img : Image)
    (hX : img.Bounds.Max.X = img.Bounds.Min.X + 72)
    (hY : img.Bounds.Max.Y = img.Bounds.Min.Y + 72) :
    (∀ (p : List Nat) (x y : Int),
      SetKeyImage_storePixel img img.Bounds.Min p x y =
        applyStores p (SetKeyImage_pixelStores img img.Bounds.Min x y)) ∧
    SetKeyImage_pixels img =
      applyStores (List.replicate (iconSize * iconSize * 3) 0) (SetKeyImage_storeList img) ∧
    (SetKeyImage_storeList img).map Prod.fst = SetKeyImage_stores img ∧
    (∀ s : Int × Nat, s ∈ SetKeyImage_storeList img → 0 ≤ s.1 ∧ s.1 < 15552) ∧
    (SetKeyImage_storeList img).length = 15552 ∧
    (∀ j : Nat, j < 15552 →
      ((SetKeyImage_storeList img).map Prod.fst).count (j : Int) = 1) ∧
    (∀ i : Int, i ∈ SetKeyImage_stores img → 0 ≤ i ∧ i < 15552) ∧
    (SetKeyImage_stores img).length = 15552 ∧
    (∀ j : Nat, j < 15552 → (SetKeyImage_stores img).count (j : Int) = 1) ∧
    SetKeyImage_index img.Bounds.Min (img.Bounds.Min.X + 0) (img.Bounds.Min.Y + 71) - 1 =
      15551 ∧
    SetKeyImage_index img.Bounds.Min (img.Bounds.Min.X + 71) (img.Bounds.Min.Y + 0) - 3 = 0 ∧
    (∃ pixels : List Nat, SetKeyImage_pixels img = some pixels ∧
      pixels.length = iconSize * iconSize * 3 ∧
      ∀ s : Int × Nat, s ∈ SetKeyImage_storeList img → pixels[s.1.toNat]? = some s.2) ∧
    iconSize * iconSize * 3 = 15552 := by
  have hidx := SetKeyImage_storeList_indices img
  have hin : ∀ i : Int, i ∈ SetKeyImage_stores img → 0 ≤ i ∧ i < 15552 := by
    intro i hi
    rw [mem_SetKeyImage_stores] at hi
    obtain ⟨x, y, hx1, hx2, hy1, hy2, h⟩ := hi
    simp only [SetKeyImage_index_eq] at h
    omega
  have hlen : (SetKeyImage_stores img).length = 15552 := by
    rw [SetKeyImage_stores_length, hX, hY]
    have h1 : (img.Bounds.Min.X + 72 - img.Bounds.Min.X).toNat = 72 := by omega
    have h2 : (img.Bounds.Min.Y + 72 - img.Bounds.Min.Y).toNat = 72 := by omega
    rw [h1, h2]
  have hcount : ∀ j : Nat, j < 15552 → (SetKeyImage_stores img).count (j : Int) = 1 := by
    intro j hj
    apply List.count_eq_one_of_mem (SetKeyImage_stores_nodup img (by omega))
    rw [mem_SetKeyImage_stores]
    refine ⟨img.Bounds.Min.X + (71 - (j / 3 % 72 : Nat) : Int),
      img.Bounds.Min.Y + ((j / 216 : Nat) : Int), ?_, ?_, ?_, ?_, ?_⟩
    · omega
    · omega
    · omega
    · omega
    · simp only [SetKeyImage_index_eq]
      omega
  refine ⟨fun p x y => SetKeyImage_storePixel_eq_applyStores img img.Bounds.Min p x y,
    SetKeyImage_pixels_eq_applyStores img, hidx, ?_, ?_, ?_, hin, hlen, hcount, ?_, ?_, ?_, rfl⟩
  · intro s hs
    exact hin s.1 (by rw [← hidx]; exact List.mem_map_of_mem Prod.fst hs)
  · rw [← List.length_map (SetKeyImage_storeList img) Prod.fst, hidx]
    exact hlen
  · rw [hidx]
    exact hcount
  · simp only [SetKeyImage_index_eq]
    omega
  · simp only [SetKeyImage_index_eq]
    omega
  · exact SetKeyImage_pixels_store_values img hX hY

/-- Instance of C17: the red 72x72 image at the origin `(3, -4)`. -/
theorem SetKeyImage_indices_in_bounds_witness :
    ((uniformImage 3 (-4) red16).Bounds.Max.X = (uniformImage 3 (-4) red16).Bounds.Min.X + 72 ∧
      (uniformImage 3 (-4) red16).Bounds.Max.Y =
        (uniformImage 3 (-4) red16).Bounds.Min.Y + 72) ∧
    (SetKeyImage_pixels (uniformImage 3 (-4) red16) =
        applyStores (List.replicate (iconSize * iconSize * 3) 0)
          (SetKeyImage_storeList (uniformImage 3 (-4) red16)) ∧
      (∀ s : Int × Nat, s ∈ SetKeyImage_storeList (uniformImage 3 (-4) red16) →
        0 ≤ s.1 ∧ s.1 < 15552) ∧
      (SetKeyImage_storeList (uniformImage 3 (-4) red16)).length = 15552 ∧
      (∀ j : Nat, j < 15552 →
        ((SetKeyImage_storeList (uniformImage 3 (-4) red16)).map Prod.fst).count (j : Int) =
          1) ∧
      (∀ i : Int, i ∈ SetKeyImage_stores (uniformImage 3 (-4) red16) → 0 ≤ i ∧ i < 15552) ∧
      (SetKeyImage_stores (uniformImage 3 (-4) red16)).length = 15552 ∧
      (∀ j : Nat, j < 15552 →
        (SetKeyImage_stores (uniformImage 3 (-4) red16)).count (j : Int) = 1)) :=
  have h := SetKeyImage_indices_in_bounds (uniformImage 3 (-4) red16) (by decide) (by decide)
  ⟨⟨by decide, by decide⟩, h.2.1, h.2.2.2.1, h.2.2.2.2.1, h.2.2.2.2.2.1, h.2.2.2.2.2.2.1,
    h.2.2.2.2.2.2.2.1, h.2.2.2.2.2.2.2.2.1⟩

end Streamdeck

namespace Streamdeck

/-! ## Images of any size -/

theorem store_length {α : Type} (s s2 : List α) (i : Int) (v : α)
    (h : store s i v = some s2) : s2.length = s.length := by
  unfold store at h
  split at h
  · simp only [Option.some.injEq] at h
    rw [← h, List.length_set]
  · cases h

theorem store_none {α : Type} (s : List α) (i : Int) (v : α)
    (h : i < 0 ∨ (s.length : Int) ≤ i) : store s i v = none := by
  unfold store
  rw [if_neg (by omega)]

theorem SetKeyImage_storePixel_length (img : Image) (min : Point) (p q : List Nat) (x y : Int)
    (h : SetKeyImage_storePixel img min p x y = some q) : q.length = p.length := by
  rw [SetKeyImage_storePixel_index] at h
  cases h1 : store p (SetKeyImage_index min x y - 1) (channelByte (img.At x y).r) with
  | none => rw [h1] at h; cases h
  | some p1 =>
    rw [h1] at h
    simp only [Option.bind] at h
    cases h2 : store p1 (SetKeyImage_index min x y - 2) (channelByte (img.At x y).g) with
    | none => rw [h2] at h; cases h
    | some p2 =>
      rw [h2] at h
      simp only [] at h
      rw [store_length _ _ _ _ h, store_length _ _ _ _ h2, store_length _ _ _ _ h1]

/-- A fold in `Option` keeps an invariant that each of its steps keeps. -/
theorem foldlM_inv {α β : Type} (f : β → α → Option β) (Inv : β → Prop)
    (hpres : ∀ b a b2, Inv b → f b a = some b2 → Inv b2) (l : List α) (b b2 : β)
    (h : l.foldlM f b = some b2) (hb : Inv b) : Inv b2 := by
  induction l generalizing b with
  | nil =>
    simp only [List.foldlM_nil, Option.pure_def, Option.some.injEq] at h
    rw [← h]; exact hb
  | cons a rest ih =>
    rw [List.foldlM_cons] at h
    cases h1 : f b a with
    | none => rw [h1] at h; cases h
    | some b1 =>
      rw [h1] at h
      exact ih b1 h (hpres b a b1 hb h1)

/-- A fold in `Option` fails when one of its steps fails from every state that
satisfies an invariant of the steps. -/
theorem foldlM_eq_none {α β : Type} (f : β → α → Option β) (Inv : β → Prop)
    (hpres : ∀ b a b2, Inv b → f b a = some b2 → Inv b2) (a : α)
    (hfail : ∀ b, Inv b → f b a = none) (l : List α) (ha : a ∈ l) (b : β) (hb : Inv b) :
    l.foldlM f b = none := by
  induction l generalizing b with
  | nil => cases ha
  | cons x rest ih =>
    rw [List.foldlM_cons]
    cases h1 : f b x with
    | none => rfl
    | some b1 =>
      have hx : a ≠ x := by
        intro e
        rw [← e, hfail b hb] at h1
        cases h1
      have hmem : a ∈ rest := by
        rcases List.mem_cons.mp ha with h | h
        · exact absurd h hx
        · exact h
      exact ih hmem b1 (hpres b x b1 hb h1)

theorem pixels0_length :
    (List.replicate (iconSize * iconSize * 3) 0 : List Nat).length = 15552 := by
  rw [List.length_replicate]
  rfl

/-- The buffer of `SetKeyImage` keeps its 15552 bytes. -/
theorem SetKeyImage_pixels_length (img : Image) (pixels : List Nat)
    (h : SetKeyImage_pixels img = some pixels) : pixels.length = 15552 := by
  unfold SetKeyImage_pixels at h
  refine foldlM_inv _ (fun p => p.length = 15552) ?_ _ _ _ h
    pixels0_length
  intro b x b2 hb hstep
  refine foldlM_inv _ (fun p => p.length = 15552) ?_ _ _ _ hstep hb
  intro c y c2 hc hs
  rw [SetKeyImage_storePixel_length _ _ _ _ _ _ hs]
  exact hc

/-- `SetKeyImage` panics when the bounds hold a pixel at which a store is out of
range. -/
theorem SetKeyImage_pixels_none (img : Image) (fx fy : Int)
    (hfx : fx ∈ intRange img.Bounds.Min.X img.Bounds.Max.X)
    (hfy : fy ∈ intRange img.Bounds.Min.Y img.Bounds.Max.Y)
    (hfail : ∀ p : List Nat, p.length = 15552 →
      SetKeyImage_storePixel img img.Bounds.Min p fx fy = none) :
    SetKeyImage_pixels img = none := by
  unfold SetKeyImage_pixels
  have hinner : ∀ (x : Int) (b b2 : List Nat), b.length = 15552 →
      (intRange img.Bounds.Min.Y img.Bounds.Max.Y).foldlM
        (fun pixels y => SetKeyImage_storePixel img img.Bounds.Min pixels x y) b = some b2 →
      b2.length = 15552 := by
    intro x b b2 hb hstep
    refine foldlM_inv _ (fun p => p.length = 15552) ?_ _ _ _ hstep hb
    intro c y c2 hc hs
    rw [SetKeyImage_storePixel_length _ _ _ _ _ _ hs]
    exact hc
  refine foldlM_eq_none _ (fun p => p.length = 15552) (fun b x b2 hb hs => hinner x b b2 hb hs)
    fx ?_ _ hfx _ pixels0_length
  intro b hb
  refine foldlM_eq_none _ (fun p => p.length = 15552) ?_ fy (fun c hc => hfail c hc) _ hfy b hb
  intro c y c2 hc hs
  rw [SetKeyImage_storePixel_length _ _ _ _ _ _ hs]
  exact hc

/-- At `dx = 72` on the first row the store to `i - 1 = -1` panics. -/
theorem SetKeyImage_storePixel_wide (img : Image) (p : List Nat) :
    SetKeyImage_storePixel img img.Bounds.Min p (img.Bounds.Min.X + 72) img.Bounds.Min.Y =
      none := by
  rw [SetKeyImage_storePixel_index, store_none _ _ _ (by
    left
    rw [SetKeyImage_index_eq]
    omega)]
  rfl

/-- At `dx = 0` on the row `dy = 72` the store to `i - 1 = 15767` panics. -/
theorem SetKeyImage_storePixel_tall (img : Image) (p : List Nat) (hp : p.length = 15552) :
    SetKeyImage_storePixel img img.Bounds.Min p img.Bounds.Min.X (img.Bounds.Min.Y + 72) =
      none := by
  rw [SetKeyImage_storePixel_index, store_none _ _ _ (by
    right
    rw [SetKeyImage_index_eq, hp]
    omega)]
  rfl

end Streamdeck

namespace Streamdeck

/-- One pixel of the icon: the three stores do not panic and change no other
byte. -/
theorem storePixel_untouched (img : Image) (min : Point) (p : List Nat) (dx dy : Nat)
    (hx : dx < 72) (hy : dy < 72) (hl : p.length = 15552) :
    ∃ q : List Nat,
      SetKeyImage_storePixel img min p (min.X + dx) (min.Y + dy) = some q ∧
      q.length = 15552 ∧
      ∀ j, j ≠ 3 * (dy * 72 + (71 - dx)) → j ≠ 3 * (dy * 72 + (71 - dx)) + 1 →
        j ≠ 3 * (dy * 72 + (71 - dx)) + 2 → q[j]? = p[j]? := by
  refine ⟨_, storePixel_eq img min p dx dy hx hy hl, ?_, ?_⟩
  · simp only [List.length_set]
    exact hl
  · intro j h0 h1 h2
    rw [getElem?_set3 _ _ _ _ _ _ (by rw [hl]; omega), if_neg h0, if_neg h1, if_neg h2]

/-- One column of an image that fits the icon: no store panics and the bytes
that are not the target of a store keep their value. -/
theorem column_untouched (img : Image) (dx : Nat) (hx : dx < 72) (n : Nat) (hn : n ≤ 72)
    (p : List Nat) (hp : p.length = 15552) :
    ∃ q : List Nat,
      (List.range n).foldlM (fun pixels (d : Nat) =>
        SetKeyImage_storePixel img img.Bounds.Min pixels
          (img.Bounds.Min.X + dx) (img.Bounds.Min.Y + (d : Int))) p = some q ∧
      q.length = 15552 ∧
      ∀ j, (∀ dy, dy < n → ∀ c, c < 3 → j ≠ 3 * (dy * 72 + (71 - dx)) + c) →
        q[j]? = p[j]? := by
  induction n with
  | zero => exact ⟨p, rfl, hp, fun _ _ => rfl⟩
  | succ n ih =>
    obtain ⟨q, hq, hlen, hkeep⟩ := ih (by omega)
    obtain ⟨q2, hstep, hlen2, hkeep2⟩ :=
      storePixel_untouched img img.Bounds.Min q dx n hx (by omega) hlen
    refine ⟨q2, ?_, hlen2, ?_⟩
    · rw [List.range_succ, List.foldlM_append, hq]
      simpa using hstep
    · intro j hj
      have h0 := hj n (by omega) 0 (by omega)
      have h1 := hj n (by omega) 1 (by omega)
      have h2 := hj n (by omega) 2 (by omega)
      rw [hkeep2 j (by omega) (by omega) (by omega)]
      exact hkeep j (fun dy hdy c hc => hj dy (by omega) c hc)

/-- The columns of an image that fits the icon. -/
theorem columns_untouched (img : Image)
    (hh : (img.Bounds.Max.Y - img.Bounds.Min.Y).toNat ≤ 72) (n : Nat) (hn : n ≤ 72)
    (p : List Nat) (hp : p.length = 15552) :
    ∃ q : List Nat,
      (List.range n).foldlM (fun pixels (d : Nat) =>
        (intRange img.Bounds.Min.Y img.Bounds.Max.Y).foldlM
          (fun pixels y => SetKeyImage_storePixel img img.Bounds.Min pixels
            (img.Bounds.Min.X + (d : Int)) y) pixels) p = some q ∧
      q.length = 15552 ∧
      ∀ j, (∀ dx, dx < n → ∀ dy, dy < (img.Bounds.Max.Y - img.Bounds.Min.Y).toNat →
          ∀ c, c < 3 → j ≠ 3 * (dy * 72 + (71 - dx)) + c) →
        q[j]? = p[j]? := by
  induction n with
  | zero => exact ⟨p, rfl, hp, fun _ _ => rfl⟩
  | succ n ih =>
    obtain ⟨q, hq, hlen, hkeep⟩ := ih (by omega)
    obtain ⟨q2, hq2, hlen2, hkeep2⟩ := column_untouched img n (by omega)
      (img.Bounds.Max.Y - img.Bounds.Min.Y).toNat hh q hlen
    refine ⟨q2, ?_, hlen2, ?_⟩
    · rw [List.range_succ, List.foldlM_append, hq]
      simp only [List.foldlM_cons, List.foldlM_nil, Option.some_bind, Option.bind_eq_bind]
      unfold intRange
      rw [List.foldlM_map]
      simpa using hq2
    · intro j hj
      rw [hkeep2 j (fun dy hdy c hc => hj n (by omega) dy hdy c hc)]
      exact hkeep j (fun dx hdx dy hdy c hc => hj dx (by omega) dy hdy c hc)

/-- An image that fits the icon: `SetKeyImage` builds its buffer, and every
byte that is not the target of a store is zero. -/
theorem SetKeyImage_pixels_small (img : Image)
    (hw : img.Bounds.Max.X - img.Bounds.Min.X ≤ 72)
    (hh : img.Bounds.Max.Y - img.Bounds.Min.Y ≤ 72) :
    ∃ pixels : List Nat, SetKeyImage_pixels img = some pixels ∧ pixels.length = 15552 ∧
      ∀ j : Nat, j < 15552 → (j : Int) ∉ SetKeyImage_stores img → pixels[j]? = some 0 := by
  obtain ⟨q, hq, hlen, hkeep⟩ := columns_untouched img (by omega)
    (img.Bounds.Max.X - img.Bounds.Min.X).toNat (by omega)
    (List.replicate (iconSize * iconSize * 3) 0) pixels0_length
  refine ⟨q, ?_, hlen, ?_⟩
  · unfold SetKeyImage_pixels
    simp only []
    rw [show intRange img.Bounds.Min.X img.Bounds.Max.X =
      (List.range (img.Bounds.Max.X - img.Bounds.Min.X).toNat).map
        (fun (d : Nat) => img.Bounds.Min.X + (d : Int)) from rfl, List.foldlM_map]
    exact hq
  · intro j hj hnot
    have hsz : iconSize * iconSize * 3 = 15552 := rfl
    rw [hkeep j ?_, List.getElem?_replicate_of_lt (by rw [hsz]; exact hj)]
    intro dx hdx dy hdy c hc heq
    apply hnot
    rw [mem_SetKeyImage_stores]
    refine ⟨img.Bounds.Min.X + (dx : Int), img.Bounds.Min.Y + (dy : Int), by omega, by omega,
      by omega, by omega, ?_⟩
    simp only [SetKeyImage_index_eq]
    omega

/-- C19: `SetKeyImage` does not check the size of the image.  For an image of
width `w ≥ 1` and height `h ≥ 1`, all the indices it computes lie in
`[0, 15552)` exactly when `w ≤ 72` and `h ≤ 72`, and exactly then it builds its
buffer without a panic.  For `w > 72` the index `i-1` at `(dx = 72, dy = 0)` is
negative, for `h > 72` the index `i-1` at `(dx = 0, dy = 72)` is past the
buffer; an image that does not fit makes `SetKeyImage` panic with nothing
written to the transport, and in the buffer of an image that fits every byte
that no store writes is zero. -/
theorem SetKeyImage_size (img : Image)
    (hw : img.Bounds.Min.X < img.Bounds.Max.X) (hh : img.Bounds.Min.Y < img.Bounds.Max.Y) :
    ((∀ i : Int, i ∈ SetKeyImage_stores img → 0 ≤ i ∧ i < 15552) ↔
      (img.Bounds.Max.X - img.Bounds.Min.X ≤ 72 ∧ img.Bounds.Max.Y - img.Bounds.Min.Y ≤ 72)) ∧
    ((∃ pixels : List Nat, SetKeyImage_pixels img = some pixels) ↔
      (img.Bounds.Max.X - img.Bounds.Min.X ≤ 72 ∧ img.Bounds.Max.Y - img.Bounds.Min.Y ≤ 72)) ∧
    (72 < img.Bounds.Max.X - img.Bounds.Min.X →
      SetKeyImage_index img.Bounds.Min (img.Bounds.Min.X + 72) img.Bounds.Min.Y - 1 ∈
        SetKeyImage_stores img ∧
      SetKeyImage_index img.Bounds.Min (img.Bounds.Min.X + 72) img.Bounds.Min.Y - 1 < 0) ∧
    (72 < img.Bounds.Max.Y - img.Bounds.Min.Y →
      SetKeyImage_index img.Bounds.Min img.Bounds.Min.X (img.Bounds.Min.Y + 72) - 1 ∈
        SetKeyImage_stores img ∧
      15552 ≤ SetKeyImage_index img.Bounds.Min img.Bounds.Min.X (img.Bounds.Min.Y + 72) - 1) ∧
    (¬ (img.Bounds.Max.X - img.Bounds.Min.X ≤ 72 ∧ img.Bounds.Max.Y - img.Bounds.Min.Y ≤ 72) →
      ∀ (σ ε : Type) (d : Device σ ε) (w : World σ) (key : Int),
        SetKeyImage d w key img = (w, Outcome.panic)) ∧
    (img.Bounds.Max.X - img.Bounds.Min.X ≤ 72 ∧ img.Bounds.Max.Y - img.Bounds.Min.Y ≤ 72 →
      ∃ pixels : List Nat, SetKeyImage_pixels img = some pixels ∧ pixels.length = 15552 ∧
        ∀ j : Nat, j < 15552 → (j : Int) ∉ SetKeyImage_stores img → pixels[j]? = some 0) := by
  have hwide : 72 < img.Bounds.Max.X - img.Bounds.Min.X →
      SetKeyImage_index img.Bounds.Min (img.Bounds.Min.X + 72) img.Bounds.Min.Y - 1 ∈
        SetKeyImage_stores img ∧
      SetKeyImage_index img.Bounds.Min (img.Bounds.Min.X + 72) img.Bounds.Min.Y - 1 < 0 := by
    intro h
    constructor
    · rw [mem_SetKeyImage_stores]
      exact ⟨img.Bounds.Min.X + 72, img.Bounds.Min.Y, by omega, by omega, by omega, by omega,
        Or.inl rfl⟩
    · rw [SetKeyImage_index_eq]
      omega
  have htall : 72 < img.Bounds.Max.Y - img.Bounds.Min.Y →
      SetKeyImage_index img.Bounds.Min img.Bounds.Min.X (img.Bounds.Min.Y + 72) - 1 ∈
        SetKeyImage_stores img ∧
      15552 ≤ SetKeyImage_index img.Bounds.Min img.Bounds.Min.X (img.Bounds.Min.Y + 72) - 1 := by
    intro h
    constructor
    · rw [mem_SetKeyImage_stores]
      exact ⟨img.Bounds.Min.X, img.Bounds.Min.Y + 72, by omega, by omega, by omega, by omega,
        Or.inl rfl⟩
    · rw [SetKeyImage_index_eq]
      omega
  have hnone : ¬ (img.Bounds.Max.X - img.Bounds.Min.X ≤ 72 ∧
      img.Bounds.Max.Y - img.Bounds.Min.Y ≤ 72) → SetKeyImage_pixels img = none := by
    intro h
    by_cases ht : 72 < img.Bounds.Max.Y - img.Bounds.Min.Y
    · exact SetKeyImage_pixels_none img img.Bounds.Min.X (img.Bounds.Min.Y + 72)
        (by rw [mem_intRange]; omega) (by rw [mem_intRange]; omega)
        (fun p hp => SetKeyImage_storePixel_tall img p hp)
    · exact SetKeyImage_pixels_none img (img.Bounds.Min.X + 72) img.Bounds.Min.Y
        (by rw [mem_intRange]; omega) (by rw [mem_intRange]; omega)
        (fun p _ => SetKeyImage_storePixel_wide img p)
  refine ⟨⟨?_, ?_⟩, ⟨?_, ?_⟩, hwide, htall, ?_, ?_⟩
  · intro hall
    constructor
    · by_contra hc
      have := hall _ (hwide (by omega)).1
      have := (hwide (by omega)).2
      omega
    · by_contra hc
      have := hall _ (htall (by omega)).1
      have := (htall (by omega)).2
      omega
  · rintro ⟨h1, h2⟩ i hi
    rw [mem_SetKeyImage_stores] at hi
    obtain ⟨x, y, hx1, hx2, hy1, hy2, h⟩ := hi
    simp only [SetKeyImage_index_eq] at h
    omega
  · rintro ⟨pixels, hp⟩
    by_contra hc
    rw [hnone hc] at hp
    cases hp
  · rintro ⟨h1, h2⟩
    obtain ⟨pixels, hp, -⟩ := SetKeyImage_pixels_small img h1 h2
    exact ⟨pixels, hp⟩
  · intro hc σ ε d w key
    simp only [SetKeyImage, hnone hc]
  · rintro ⟨h1, h2⟩
    exact SetKeyImage_pixels_small img h1 h2

/-- Instance of C19: the 73x2 image `wideImage` makes `SetKeyImage` panic with
nothing written. -/
theorem SetKeyImage_size_witness :
    (wideImage.Bounds.Min.X < wideImage.Bounds.Max.X ∧
      wideImage.Bounds.Min.Y < wideImage.Bounds.Max.Y ∧
      ¬ (wideImage.Bounds.Max.X - wideImage.Bounds.Min.X ≤ 72 ∧
        wideImage.Bounds.Max.Y - wideImage.Bounds.Min.Y ≤ 72)) ∧
    SetKeyImage (okDevice []) world0 0 wideImage = (world0, Outcome.panic) :=
  ⟨⟨by decide, by decide, by decide⟩,
    (SetKeyImage_size wideImage (by decide) (by decide)).2.2.2.2.1 (by decide)
      Unit Unit (okDevice []) world0 0⟩

end Streamdeck

namespace Streamdeck

/-! ## Payload lengths and key bytes -/

theorem ClearKey_page1Bytes_length : ClearKey_page1Bytes.length = 23247 := by
  rw [ClearKey_page1Bytes, List.length_replicate]
  rfl

/-- The part of page 1 after the header, for a payload of at least 8121
bytes: the first 8121 bytes of the payload. -/
theorem buildPage1_drop_long (key : Int) (buf : List Nat) (h : 8121 ≤ buf.length) :
    (buildPage headerPage1 key buf).drop 70 = buf.take 8121 := by
  rw [buildPage1_drop, Nat.sub_eq_zero_of_le h]
  exact List.append_nil _

/-- C18, as stated, fails: the payloads that `ClearKey` and `SetKeyColor` pass
to `writePage1` are longer than `pageSize - 70 = 8121` bytes. -/
theorem writePage1_payload_counterexample :
    ¬ (ClearKey_page1Bytes.length ≤ pageSize - 70) ∧
    ¬ ((SetKeyColor_page1Bytes 255 0 0).length ≤ pageSize - 70) := by
  rw [ClearKey_page1Bytes_length, SetKeyColor_page1Bytes_length]
  decide

/-- C18, amended: the payload that `SetKeyImage` passes to `writePage1` has
`numFirstPagePixels*3 = 7749` bytes, within `pageSize - 70 = 8121`; the payloads
that `ClearKey` and `SetKeyColor` pass have `3*3*numFirstPagePixels = 23247`
bytes, more than 8121, and `writePage1` copies only their first 8121 bytes into
the page, which keeps its 8191 bytes. -/
theorem writePage1_payload_lengths (img : Image) (pixels : List Nat) (key : Int) (r g b : Nat)
    (hp : SetKeyImage_pixels img = some pixels) :
    pageSize - 70 = 8121 ∧
    (pixels.take (numFirstPagePixels * 3)).length = 7749 ∧
    (pixels.take (numFirstPagePixels * 3)).length ≤ pageSize - 70 ∧
    ClearKey_page1Bytes.length = 3 * 3 * numFirstPagePixels ∧
    (SetKeyColor_page1Bytes r g b).length = 3 * 3 * numFirstPagePixels ∧
    3 * 3 * numFirstPagePixels = 23247 ∧ pageSize - 70 < 23247 ∧
    (buildPage headerPage1 key ClearKey_page1Bytes).drop 70 = ClearKey_page1Bytes.take 8121 ∧
    (buildPage headerPage1 key (SetKeyColor_page1Bytes r g b)).drop 70 =
      (SetKeyColor_page1Bytes r g b).take 8121 ∧
    (buildPage headerPage1 key ClearKey_page1Bytes).length = 8191 ∧
    (buildPage headerPage1 key (SetKeyColor_page1Bytes r g b)).length = 8191 := by
  have hlen := SetKeyImage_pixels_length img pixels hp
  have hn : numFirstPagePixels * 3 = 7749 := rfl
  have ht : (pixels.take (numFirstPagePixels * 3)).length = 7749 := by
    rw [hn, List.length_take]
    omega
  have hps : pageSize - 70 = 8121 := rfl
  refine ⟨hps, ht, by rw [ht, hps]; decide, ClearKey_page1Bytes_length,
    SetKeyColor_page1Bytes_length r g b, rfl, by rw [hps]; decide,
    buildPage1_drop_long key _ (by rw [ClearKey_page1Bytes_length]; decide),
    buildPage1_drop_long key _ (by rw [SetKeyColor_page1Bytes_length]; decide),
    buildPage_length _ _ _, buildPage_length _ _ _⟩

/-- Instance of C18 as amended: the red 72x72 image and the colour red. -/
theorem writePage1_payload_lengths_witness :
    SetKeyImage_pixels (uniformImage 0 0 red16) =
      some (bytesRepeat [0, 0, 255] (iconSize * iconSize)) ∧
    ((bytesRepeat [0, 0, 255] (iconSize * iconSize)).take (numFirstPagePixels * 3)).length =
      7749 ∧
    ClearKey_page1Bytes.length = 3 * 3 * numFirstPagePixels ∧
    (SetKeyColor_page1Bytes 255 0 0).length = 3 * 3 * numFirstPagePixels :=
  have hp : SetKeyImage_pixels (uniformImage 0 0 red16) =
      some (bytesRepeat [0, 0, 255] (iconSize * iconSize)) :=
    SetKeyImage_pixels_uniform (uniformImage 0 0 red16) 255 0 0 (by decide) (by decide)
      (fun _ _ _ _ => ⟨(by decide : channelByte 0xffff = 255), (by decide : channelByte 0 = 0),
        (by decide : channelByte 0 = 0)⟩)
  have h := writePage1_payload_lengths (uniformImage 0 0 red16)
    (bytesRepeat [0, 0, 255] (iconSize * iconSize)) 0 255 0 0 hp
  ⟨hp, h.2.1, h.2.2.2.1, h.2.2.2.2.1⟩

theorem toByte_add_mul (key m : Int) : toByte (key + 256 * m + 1) = toByte (key + 1) := by
  unfold toByte
  congr 1
  omega

theorem buildPage_add_mul (header buf : List Nat) (key m : Int) :
    buildPage header (key + 256 * m) buf = buildPage header key buf := by
  simp only [buildPage, toByte_add_mul]

/-- The writes of a sequence of two pages: the first page alone, or both. -/
theorem writeSeq_two_writes {σ ε : Type} (d : Device σ ε) (w : World σ) (p1 p2 : List Nat) :
    (writeSeq d [p1, p2] w).1.writes = w.writes ++ [p1] ∨
      (writeSeq d [p1, p2] w).1.writes = w.writes ++ [p1, p2] := by
  cases h1 : (deviceWrite d w p1).2.2 with
  | some err =>
    left
    simp only [writeSeq, h1]
    rfl
  | none =>
    right
    cases h2 : (deviceWrite d (deviceWrite d w p1).1 p2).2.2 with
    | some err =>
      simp only [writeSeq, h1, h2]
      simp [deviceWrite]
    | none =>
      simp only [writeSeq, h1, h2]
      simp [deviceWrite]

/-- A sequence of two pages whose writes both return no error. -/
theorem writeSeq_two_ok {σ ε : Type} (d : Device σ ε) (w : World σ) (p1 p2 : List Nat)
    (h0 : errAt d w.dev [p1, p2] 0 = none) (h1 : errAt d w.dev [p1, p2] 1 = none) :
    (writeSeq d [p1, p2] w).2 = none ∧
      (writeSeq d [p1, p2] w).1.writes = w.writes ++ [p1, p2] := by
  rw [writeSeq_all_ok d [p1, p2] w (fun k hk => by
    have hk2 : k < 2 := by simpa using hk
    have : k = 0 ∨ k = 1 := by omega
    rcases this with rfl | rfl
    · exact h0
    · exact h1)]
  exact ⟨rfl, rfl⟩

theorem toByte_samples : toByte (255 + 1) = 0 ∧ toByte (-1 + 1) = 0 ∧ toByte (15 + 1) = 16 := by
  decide

/-- C20: the key is not checked and the key byte is the low 8 bits of
`key + 1`.  For every integer `key` the pages of `writePage1` and `writePage2`
have byte 5 equal to `(key + 1) mod 256`, and the writers return the error
value of the write, `nil` on a successful one.  `SetKeyColor`, `ClearKey` and
`SetKeyImage` (its pixel buffer built) write page 1, or page 1 and page 2, of
their page list and nothing else, every page of which has byte 5 equal to
`(key + 1) mod 256`; when their writes return no error they write both pages
and return no error.  So the keys 255 and -1 both give byte 0, the key 15
gives 16, and two keys that differ by a multiple of 256 give the same pages and
the same results. -/
theorem key_byte_wraps {σ ε : Type} (d : Device σ ε) (w : World σ) (key : Int)
    (buf pixels : List Nat) (r g b : Nat) :
    (writePage1 d w key buf).1.writes = w.writes ++ [buildPage headerPage1 key buf] ∧
    (writePage2 d w key buf).1.writes = w.writes ++ [buildPage headerPage2 key buf] ∧
    (buildPage headerPage1 key buf)[5]? = some ((key + 1) % 256).toNat ∧
    (buildPage headerPage2 key buf)[5]? = some ((key + 1) % 256).toNat ∧
    (writePage1 d w key buf).2 = (d.Write w.dev (buildPage headerPage1 key buf)).2.2 ∧
    (writePage2 d w key buf).2 = (d.Write w.dev (buildPage headerPage2 key buf)).2.2 ∧
    (∀ p, p ∈ SetKeyImage_pageList key pixels ++ SetKeyColor_pageList key r g b ++
        ClearKey_pageList key → p[5]? = some ((key + 1) % 256).toNat) ∧
    toByte (255 + 1) = 0 ∧ toByte (-1 + 1) = 0 ∧ toByte (15 + 1) = 16 ∧
    (∀ m : Int,
      buildPage headerPage1 (key + 256 * m) buf = buildPage headerPage1 key buf ∧
      buildPage headerPage2 (key + 256 * m) buf = buildPage headerPage2 key buf ∧
      writePage1 d w (key + 256 * m) buf = writePage1 d w key buf ∧
      writePage2 d w (key + 256 * m) buf = writePage2 d w key buf ∧
      (∀ img, SetKeyImage d w (key + 256 * m) img = SetKeyImage d w key img) ∧
      SetKeyColor d w (key + 256 * m) r g b = SetKeyColor d w key r g b ∧
      ClearKey d w (key + 256 * m) = ClearKey d w key) ∧
    ((SetKeyColor d w key r g b).1.writes =
        w.writes ++ [buildPage headerPage1 key (SetKeyColor_page1Bytes r g b)] ∨
      (SetKeyColor d w key r g b).1.writes = w.writes ++ SetKeyColor_pageList key r g b) ∧
    (errAt d w.dev (SetKeyColor_pageList key r g b) 0 = none →
      errAt d w.dev (SetKeyColor_pageList key r g b) 1 = none →
      (SetKeyColor d w key r g b).2 = none ∧
      (SetKeyColor d w key r g b).1.writes = w.writes ++ SetKeyColor_pageList key r g b) ∧
    ((ClearKey d w key).1.writes =
        w.writes ++ [buildPage headerPage1 key ClearKey_page1Bytes] ∨
      (ClearKey d w key).1.writes = w.writes ++ ClearKey_pageList key) ∧
    (errAt d w.dev (ClearKey_pageList key) 0 = none →
      errAt d w.dev (ClearKey_pageList key) 1 = none →
      (ClearKey d w key).2 = none ∧
      (ClearKey d w key).1.writes = w.writes ++ ClearKey_pageList key) ∧
    (∀ img : Image, SetKeyImage_pixels img = some pixels →
      ((SetKeyImage d w key img).1.writes =
          w.writes ++ [buildPage headerPage1 key (pixels.take (numFirstPagePixels * 3))] ∨
        (SetKeyImage d w key img).1.writes = w.writes ++ SetKeyImage_pageList key pixels) ∧
      (errAt d w.dev (SetKeyImage_pageList key pixels) 0 = none →
        errAt d w.dev (SetKeyImage_pageList key pixels) 1 = none →
        (SetKeyImage d w key img).2 = Outcome.ret none ∧
        (SetKeyImage d w key img).1.writes = w.writes ++ SetKeyImage_pageList key pixels)) ∧
    ((buildPage headerPage1 255 buf)[5]? = some 0 ∧ (buildPage headerPage2 255 buf)[5]? = some 0 ∧
      (buildPage headerPage1 (-1) buf)[5]? = some 0 ∧
      (buildPage headerPage2 (-1) buf)[5]? = some 0 ∧
      (buildPage headerPage1 15 buf)[5]? = some 16 ∧
      (buildPage headerPage2 15 buf)[5]? = some 16) := by
  obtain ⟨t255, tneg, t15⟩ := toByte_samples
  refine ⟨rfl, rfl, buildPage1_key key buf, buildPage2_key key buf, rfl, rfl, ?_,
    t255, tneg, t15, ?_, ?_, ?_, ?_, ?_, ?_, ?_⟩
  · intro p hp
    simp only [SetKeyImage_pageList, SetKeyColor_pageList, ClearKey_pageList, List.mem_append,
      List.mem_cons, List.mem_singleton, List.not_mem_nil, or_false] at hp
    rcases hp with ((h | h) | (h | h)) | (h | h)
    · rw [h]; exact buildPage1_key _ _
    · rw [h]; exact buildPage2_key _ _
    · rw [h]; exact buildPage1_key _ _
    · rw [h]; exact buildPage2_key _ _
    · rw [h]; exact buildPage1_key _ _
    · rw [h]; exact buildPage2_key _ _
  · intro m
    refine ⟨buildPage_add_mul _ _ _ _, buildPage_add_mul _ _ _ _, ?_, ?_, ?_, ?_, ?_⟩
    · simp only [writePage1, buildPage_add_mul]
    · simp only [writePage2, buildPage_add_mul]
    · intro img
      simp only [SetKeyImage, writePage1, writePage2, buildPage_add_mul]
    · simp only [SetKeyColor, writePage1, writePage2, buildPage_add_mul]
    · simp only [ClearKey, writePage1, writePage2, buildPage_add_mul]
  · rw [SetKeyColor_eq_writeSeq]
    exact writeSeq_two_writes d w _ _
  · intro h0 h1
    rw [SetKeyColor_eq_writeSeq]
    exact writeSeq_two_ok d w _ _ h0 h1
  · rw [ClearKey_eq_writeSeq]
    exact writeSeq_two_writes d w _ _
  · intro h0 h1
    rw [ClearKey_eq_writeSeq]
    exact writeSeq_two_ok d w _ _ h0 h1
  · intro img hp
    rw [SetKeyImage_eq_writeSeq d w key img pixels hp]
    refine ⟨writeSeq_two_writes d w _ _, ?_⟩
    intro h0 h1
    obtain ⟨hr, hw⟩ := writeSeq_two_ok d w _ _ h0 h1
    exact ⟨congrArg Outcome.ret hr, hw⟩
  · refine ⟨?_, ?_, ?_, ?_, ?_, ?_⟩
    · rw [buildPage1_key, t255]
    · rw [buildPage2_key, t255]
    · rw [buildPage1_key, tneg]
    · rw [buildPage2_key, tneg]
    · rw [buildPage1_key, t15]
    · rw [buildPage2_key, t15]

/-- Instance of C20: with the key 255 on a transport whose writes succeed,
`ClearKey`, `SetKeyColor` and `SetKeyImage` write their two pages, each with
byte 5 equal to 0, and return no error. -/
theorem key_byte_wraps_witness :
    SetKeyImage_pixels (uniformImage 0 0 red16) =
      some (bytesRepeat [0, 0, 255] (iconSize * iconSize)) ∧
    (∀ p, p ∈ SetKeyImage_pageList 255 (bytesRepeat [0, 0, 255] (iconSize * iconSize)) ++
        SetKeyColor_pageList 255 255 0 0 ++ ClearKey_pageList 255 →
      p[5]? = some ((255 + 1 : Int) % 256).toNat) ∧
    ((255 + 1 : Int) % 256).toNat = 0 ∧
    (ClearKey (okDevice []) world0 255).2 = none ∧
    (ClearKey (okDevice []) world0 255).1.writes = world0.writes ++ ClearKey_pageList 255 ∧
    (SetKeyColor (okDevice []) world0 255 255 0 0).2 = none ∧
    (SetKeyColor (okDevice []) world0 255 255 0 0).1.writes =
      world0.writes ++ SetKeyColor_pageList 255 255 0 0 ∧
    (SetKeyImage (okDevice []) world0 255 (uniformImage 0 0 red16)).2 = Outcome.ret none ∧
    (SetKeyImage (okDevice []) world0 255 (uniformImage 0 0 red16)).1.writes =
      world0.writes ++
        SetKeyImage_pageList 255 (bytesRepeat [0, 0, 255] (iconSize * iconSize)) := by
  have hp : SetKeyImage_pixels (uniformImage 0 0 red16) =
      some (bytesRepeat [0, 0, 255] (iconSize * iconSize)) :=
    SetKeyImage_pixels_uniform (uniformImage 0 0 red16) 255 0 0 (by decide) (by decide)
      (fun _ _ _ _ => ⟨(by decide : channelByte 0xffff = 255), (by decide : channelByte 0 = 0),
        (by decide : channelByte 0 = 0)⟩)
  obtain ⟨-, -, -, -, -, -, hpages, -, -, -, -, -, hc, -, hk, hi, -⟩ :=
    key_byte_wraps (okDevice []) world0 255 [] (bytesRepeat [0, 0, 255] (iconSize * iconSize))
      255 0 0
  obtain ⟨hc1, hc2⟩ := hc rfl rfl
  obtain ⟨hk1, hk2⟩ := hk rfl rfl
  obtain ⟨hi1, hi2⟩ := (hi (uniformImage 0 0 red16) hp).2 rfl rfl
  exact ⟨hp, hpages, by decide, hk1, hk2, hc1, hc2, hi1, hi2⟩

end Streamdeck
